import Mathlib

/-!
Header decoding of quantized model files (package `llm`).

A shallow embedding of `llm/ggml.go` and `llm/llm.go`: the `ggmlFileType` label
function, the four container variants, `DecodeGGML`, and the factory `New`.
Unsigned 32-bit values are natural numbers below `2 ^ 32`; a reader is a byte
sequence together with a read offset; a Go `error` is represented by its message,
and a `(*GGML, error)` result by a pair of options.  The handles a process holds
open are explicit state of a `World`.
-/

namespace llm

/-! ## Constants -/

/-- Magic constant for `ggml` files (unversioned). -/
def FILE_MAGIC_GGML : Nat := 0x67676d6c
/-- Magic constant for `ggml` files (versioned, ggmf). -/
def FILE_MAGIC_GGMF : Nat := 0x67676d66
/-- Magic constant for `ggml` files (versioned, ggjt). -/
def FILE_MAGIC_GGJT : Nat := 0x67676a74
/-- Magic constant for `ggla` files (LoRA adapter). -/
def FILE_MAGIC_GGLA : Nat := 0x67676C61

/-- The expression list `iota` of the file-type constant block: the value of a
constant is the implicit expression evaluated at the index of its line. -/
def ftypeIota (line : Int) : Int := line

/-- The expression list `iota + 3`, which the block repeats implicitly from the
sixth line on. -/
def ftypeIotaPlus3 (line : Int) : Int := line + 3

def GGML_FTYPE_ALL_F32 : Int := ftypeIota 0
def GGML_FTYPE_MOSTLY_F16 : Int := ftypeIota 1
def GGML_FTYPE_MOSTLY_Q4_0 : Int := ftypeIota 2
def GGML_FTYPE_MOSTLY_Q4_1 : Int := ftypeIota 3
def GGML_FTYPE_MOSTLY_Q4_1_SOME_F16 : Int := ftypeIota 4
def GGML_FTYPE_MOSTLY_Q8_0 : Int := ftypeIotaPlus3 5
def GGML_FTYPE_MOSTLY_Q5_0 : Int := ftypeIotaPlus3 6
def GGML_FTYPE_MOSTLY_Q5_1 : Int := ftypeIotaPlus3 7
def GGML_FTYPE_MOSTLY_Q2_K : Int := ftypeIotaPlus3 8
def GGML_FTYPE_MOSTLY_Q3_K : Int := ftypeIotaPlus3 9
def GGML_FTYPE_MOSTLY_Q4_K : Int := ftypeIotaPlus3 10
def GGML_FTYPE_MOSTLY_Q5_K : Int := ftypeIotaPlus3 11
def GGML_FTYPE_MOSTLY_Q6_K : Int := ftypeIotaPlus3 12
def GGML_FTYPE_UNKNOWN : Int := -1

/-! ## `ggmlFileType` -/

/-- The conversion `ggmlFileType(c)` of an integer constant to the underlying
`uint32`. -/
def ggmlFileType (c : Int) : Nat := (c % 2 ^ 32).toNat

/-- The method `ggmlFileType.String`: a switch over the converted constants, in
source order, with the default label last. -/
def ggmlFileType.String (ft : Nat) : String :=
  if ft = ggmlFileType GGML_FTYPE_ALL_F32 then "F32"
  else if ft = ggmlFileType GGML_FTYPE_MOSTLY_F16 then "F16"
  else if ft = ggmlFileType GGML_FTYPE_MOSTLY_Q4_0 then "Q4_0"
  else if ft = ggmlFileType GGML_FTYPE_MOSTLY_Q4_1 then "Q4_1"
  else if ft = ggmlFileType GGML_FTYPE_MOSTLY_Q4_1_SOME_F16 then "Q4_1_SOME_F16"
  else if ft = ggmlFileType GGML_FTYPE_MOSTLY_Q8_0 then "Q8_0"
  else if ft = ggmlFileType GGML_FTYPE_MOSTLY_Q5_0 then "Q5_0"
  else if ft = ggmlFileType GGML_FTYPE_MOSTLY_Q5_1 then "Q5_1"
  else if ft = ggmlFileType GGML_FTYPE_MOSTLY_Q2_K then "Q2_K"
  else if ft = ggmlFileType GGML_FTYPE_MOSTLY_Q3_K then "Q3_K"
  else if ft = ggmlFileType GGML_FTYPE_MOSTLY_Q4_K then "Q4_K"
  else if ft = ggmlFileType GGML_FTYPE_MOSTLY_Q5_K then "Q5_K"
  else if ft = ggmlFileType GGML_FTYPE_MOSTLY_Q6_K then "Q6_K"
  else "U"

/-! ## Readers and `encoding/binary` -/

/-- A Go `error`, represented by the text its `Error` method returns. -/
abbrev error := String

/-- An `io.ReadSeeker` over a finite byte sequence: the bytes and the offset of
the next read. -/
structure Reader where
  data : List UInt8
  off : Nat
deriving DecidableEq, Repr

/-- A reader positioned at the start of the given bytes. -/
def NewReader (b : List UInt8) : Reader := { data := b, off := 0 }

/-- The bytes not yet consumed. -/
def Reader.remaining (r : Reader) : List UInt8 := r.data.drop r.off

/-- The function `io.ReadFull` for a buffer of `n` bytes: when `n` bytes remain
they are returned and consumed; otherwise everything that remains is consumed and
the call reports `EOF` (nothing was read) or `unexpected EOF`. -/
def ReadFull (r : Reader) (n : Nat) : Option (List UInt8) × Option error × Reader :=
  if n ≤ r.remaining.length then
    (some (r.remaining.take n), none, { r with off := r.off + n })
  else if r.remaining.length = 0 then
    (none, some "EOF", r)
  else
    (none, some "unexpected EOF", { r with off := r.data.length })

/-- The decoder `binary.LittleEndian.Uint32` on a four-byte buffer. -/
def LittleEndian.Uint32 (b : List UInt8) : Nat :=
  match b with
  | [b0, b1, b2, b3] =>
      b0.toNat + b1.toNat * 2 ^ 8 + b2.toNat * 2 ^ 16 + b3.toNat * 2 ^ 24
  | _ => 0

/-- The encoder `binary.LittleEndian.PutUint32`, used to build streams. -/
def LittleEndian.PutUint32 (v : Nat) : List UInt8 :=
  [UInt8.ofNat (v % 256), UInt8.ofNat (v / 2 ^ 8 % 256),
   UInt8.ofNat (v / 2 ^ 16 % 256), UInt8.ofNat (v / 2 ^ 24 % 256)]

/-- The call `binary.Read(r, binary.LittleEndian, &x)` for `x` of type `uint32`
holding `cur`: on a short read `x` keeps its value and the error is returned. -/
def binaryReadUint32 (r : Reader) (cur : Nat) : Option error × Nat × Reader :=
  match ReadFull r 4 with
  | (some b, _, r1) => (none, LittleEndian.Uint32 b, r1)
  | (none, e, r1) => (e, cur, r1)

/-! ## Containers -/

/-- The implementations of the `container` interface; the versioned ones carry
their `version` field. -/
inductive container where
  | GGML
  | GGMF (version : Nat)
  | GGJT (version : Nat)
  | LORA (version : Nat)
deriving DecidableEq, Repr

/-- The method `Name` of the four implementations. -/
def container.Name : container → String
  | .GGML => "ggml"
  | .GGMF _ => "ggmf"
  | .GGJT _ => "ggjt"
  | .LORA _ => "ggla"

/-- The version a container stores, if it is a versioned one. -/
def container.version : container → Option Nat
  | .GGML => none
  | .GGMF v => some v
  | .GGJT v => some v
  | .LORA v => some v

/-- The method `containerGGML.Decode`: reads nothing and returns `nil`. -/
def containerGGML.Decode (r : Reader) : Option error × Reader := (none, r)

/-- The method `containerGGMF.Decode` on a receiver whose `version` field holds `c`:
the error, the field afterwards, and the reader afterwards. -/
def containerGGMF.Decode (c : Nat) (r : Reader) : Option error × Nat × Reader :=
  let rd := binaryReadUint32 r 0
  let version := rd.2.1
  if version = 1 then (none, version, rd.2.2)
  else (some "invalid version", c, rd.2.2)

/-- The method `containerGGJT.Decode`. -/
def containerGGJT.Decode (c : Nat) (r : Reader) : Option error × Nat × Reader :=
  let rd := binaryReadUint32 r 0
  let version := rd.2.1
  if version = 1 ∨ version = 2 ∨ version = 3 then (none, version, rd.2.2)
  else (some "invalid version", c, rd.2.2)

/-- The method `containerLORA.Decode`. -/
def containerLORA.Decode (c : Nat) (r : Reader) : Option error × Nat × Reader :=
  let rd := binaryReadUint32 r 0
  let version := rd.2.1
  if version = 1 then (none, version, rd.2.2)
  else (some "invalid version", c, rd.2.2)

/-- The interface call `c.Decode(r)`, dispatched on the dynamic type. -/
def container.Decode (c : container) (r : Reader) : Option error × container × Reader :=
  match c with
  | .GGML => ((containerGGML.Decode r).1, .GGML, (containerGGML.Decode r).2)
  | .GGMF v =>
      ((containerGGMF.Decode v r).1, .GGMF (containerGGMF.Decode v r).2.1,
        (containerGGMF.Decode v r).2.2)
  | .GGJT v =>
      ((containerGGJT.Decode v r).1, .GGJT (containerGGJT.Decode v r).2.1,
        (containerGGJT.Decode v r).2.2)
  | .LORA v =>
      ((containerLORA.Decode v r).1, .LORA (containerLORA.Decode v r).2.1,
        (containerLORA.Decode v r).2.2)

/-! ## Hyperparameters -/

/-- Modelled from the spec: the declaration of the struct `llamaHyperparameters`
is not part of `ggml.go`.  The spec describes it as a contiguous record of
fixed-width little-endian fields that contains a `u32` vocabulary size and a
32-bit quantization code.  A layout gives the encoded size of the record and the
byte offsets of these two fields. -/
structure llamaLayout where
  size : Nat
  NumVocab : Nat
  FileType : Nat
deriving DecidableEq, Repr

/-- Modelled from the spec: a value of `llamaHyperparameters`, kept as its encoded
image; the fields other than the two named ones are passed through unread. -/
structure llamaHyperparameters where
  image : List UInt8
deriving DecidableEq, Repr

/-- The zero value `var hp llamaHyperparameters`. -/
def llamaHyperparameters.zero (L : llamaLayout) : llamaHyperparameters :=
  { image := List.replicate L.size 0 }

/-- The 32-bit field of a record stored at byte offset `o`. -/
def llamaHyperparameters.field (hp : llamaHyperparameters) (o : Nat) : Nat :=
  LittleEndian.Uint32 ((hp.image.drop o).take 4)

/-- The field `hp.NumVocab`. -/
def llamaHyperparameters.NumVocab (L : llamaLayout) (hp : llamaHyperparameters) : Nat :=
  hp.field L.NumVocab

/-- The field `hp.FileType`, as its 32-bit pattern. -/
def llamaHyperparameters.FileType (L : llamaLayout) (hp : llamaHyperparameters) : Nat :=
  hp.field L.FileType

/-- A sample layout, used only to evaluate the decoder on explicit streams: seven
32-bit fields, the vocabulary size first and the quantization code last. -/
def llamaLayout.sevenWords : llamaLayout := { size := 28, NumVocab := 0, FileType := 24 }

/-- The call `binary.Read(r, binary.LittleEndian, &hp)` for a record holding `cur`:
on a short read `hp` keeps its value and the error is returned. -/
def binaryReadHyperparameters (L : llamaLayout) (r : Reader) (cur : llamaHyperparameters) :
    Option error × llamaHyperparameters × Reader :=
  match ReadFull r L.size with
  | (some b, _, r1) => (none, { image := b }, r1)
  | (none, e, r1) => (e, cur, r1)

/-! ## `GGML` and `DecodeGGML` -/

/-- The struct `GGML`; the embedded interface and the `any` field may be `nil`. -/
structure GGML where
  ModelType : String
  magic : Nat
  container : Option container
  hyperparameters : Option llamaHyperparameters
  NumVocab : Nat
  FileType : Nat
deriving DecidableEq, Repr

/-- The zero value `var ggml GGML`. -/
def GGML.zero : GGML :=
  { ModelType := "", magic := 0, container := none, hyperparameters := none,
    NumVocab := 0, FileType := 0 }

/-- The switch over `ggml.magic` that constructs the container; `none` is the
default branch. -/
def selectContainer (magic : Nat) : Option container :=
  if magic = FILE_MAGIC_GGML then some .GGML
  else if magic = FILE_MAGIC_GGMF then some (.GGMF 0)
  else if magic = FILE_MAGIC_GGJT then some (.GGJT 0)
  else if magic = FILE_MAGIC_GGLA then some (.LORA 0)
  else none

/-- The function `DecodeGGML`: the returned pointer, the returned error, and the
reader afterwards.  The errors of the three `binary.Read` calls are discarded, as
in the source. -/
def DecodeGGML (L : llamaLayout) (r : Reader) (hint : String) :
    Option GGML × Option error × Reader :=
  let rd := binaryReadUint32 r GGML.zero.magic
  let ggml : GGML := { GGML.zero with magic := rd.2.1 }
  match selectContainer ggml.magic with
  | none => (none, some "invalid file magic", rd.2.2)
  | some c =>
    let dec := container.Decode c rd.2.2
    match dec.1 with
    | some err => (none, some err, dec.2.2)
    | none =>
      let ggml : GGML := { ggml with container := some dec.2.1 }
      if hint = "llama" then
        let hr := binaryReadHyperparameters L dec.2.2 (llamaHyperparameters.zero L)
        let hp := hr.2.1
        (some { ggml with
                  hyperparameters := some hp
                  NumVocab := hp.NumVocab L
                  FileType := ggmlFileType (hp.FileType L)
                  ModelType := hint },
          none, hr.2.2)
      else
        (none, some ("unsupported model type: " ++ hint), dec.2.2)

/-! ## Streams -/

/-- The first four bytes of a stream read as a little-endian `uint32`. -/
def streamMagic (b : List UInt8) : Nat := LittleEndian.Uint32 (b.take 4)

/-- The bytes 4 to 7 of a stream read as a little-endian `uint32`. -/
def streamVersion (b : List UInt8) : Nat := LittleEndian.Uint32 ((b.drop 4).take 4)

/-- The four ASCII characters spelled by the bytes of a magic, most significant
byte first. -/
def magicName (m : Nat) : String :=
  String.mk [Char.ofNat (m / 2 ^ 24 % 256), Char.ofNat (m / 2 ^ 16 % 256),
    Char.ofNat (m / 2 ^ 8 % 256), Char.ofNat (m % 256)]

/-! ## The factory `New` (`llm/llm.go`) -/

/-- A file of the file system: its path, whether it may be opened for reading, and
its content. -/
structure FileEntry where
  path : String
  readable : Bool
  content : List UInt8
deriving DecidableEq, Repr

/-- The state of the operating system that `New` acts on: the files, the handles
currently open, and the number of the next handle. -/
structure World where
  files : List FileEntry
  openHandles : List Nat
  nextHandle : Nat
deriving DecidableEq, Repr

/-- The entry of a path, if the file exists. -/
def World.lookup (w : World) (path : String) : Option FileEntry :=
  w.files.find? (fun e => e.path = path)

/-- The call `os.Stat(path)`, reduced to its error: `nil` exactly when the file
exists. -/
def osStat (w : World) (path : String) : Option error :=
  match w.lookup path with
  | some _ => none
  | none => some ("stat " ++ path ++ ": no such file or directory")

/-- The call `os.Open(path)`: on success a fresh handle is recorded as open and
returned together with a reader over the content of the file. -/
def osOpen (w : World) (path : String) : Option (Nat × Reader) × Option error × World :=
  match w.lookup path with
  | none => (none, some ("open " ++ path ++ ": no such file or directory"), w)
  | some e =>
    if e.readable then
      (some (w.nextHandle, NewReader e.content), none,
        { w with openHandles := w.nextHandle :: w.openHandles, nextHandle := w.nextHandle + 1 })
    else
      (none, some ("open " ++ path ++ ": permission denied"), w)

/-- The method `(*os.File).Close` on a handle. `New` contains no call of it. -/
def osClose (w : World) (h : Nat) : World :=
  { w with openHandles := w.openHandles.filter (fun k => k ≠ h) }

/-- What a call of `New` does: it returns a pair of a model and an error, or it
dereferences a nil descriptor. -/
inductive Outcome (M : Type) where
  | returned (model : Option M) (err : Option error)
  | nilDereference
deriving DecidableEq, Repr

/-- The function `New`.  The backend constructor `newLlama` and the option type are
declared outside these sources and are parameters; the constructor receives the
path and the options only, never the handle `f`. -/
def New {M O : Type} (L : llamaLayout) (newLlama : String → O → Option M × Option error)
    (w : World) (model : String) (opts : O) : Outcome M × World :=
  match osStat w model with
  | some err => (.returned none (some err), w)
  | none =>
    match osOpen w model with
    | (none, err, w1) => (.returned none err, w1)
    | (some f, _, w1) =>
      let d := DecodeGGML L f.2 "llama"
      match d.2.1 with
      | some err => (.returned none (some err), w1)
      | none =>
        match d.1 with
        | none => (.nilDereference, w1)
        | some ggml =>
          if ggml.ModelType = "llama" then
            (.returned (newLlama model opts).1 (newLlama model opts).2, w1)
          else
            (.returned none (some ("unknown ggml type: " ++ ggml.ModelType)), w1)

/-- A sample world, used only to evaluate `New` on explicit inputs: a legacy model
file with a full record, a file that is not a model, a model file that may not be
read, and no open handle. -/
def sampleWorld : World :=
  { files :=
      [{ path := "m.bin", readable := true,
         content := [0x6c, 0x6d, 0x67, 0x67] ++ List.replicate 28 1 },
       { path := "bad.bin", readable := true, content := [1, 2, 3, 4, 5] },
       { path := "locked.bin", readable := false,
         content := [0x6c, 0x6d, 0x67, 0x67] ++ List.replicate 28 1 }],
    openHandles := [],
    nextHandle := 3 }

/-- A sample backend constructor, used only to evaluate `New` on explicit inputs: it
returns the model `7` for every path. -/
def sampleNewLlama : String → Unit → Option Nat × Option error :=
  fun _ _ => (some 7, none)

/-! ## Lemmas on reading -/

theorem ite_ne_of {α : Type} (p : Prop) [Decidable p] (a b c : α) (ha : a ≠ c) (hb : b ≠ c) :
    (if p then a else b) ≠ c := by
  split <;> assumption

theorem remaining_NewReader (b : List UInt8) : (NewReader b).remaining = b := by
  simp [NewReader, Reader.remaining]

theorem remaining_advance (r : Reader) (n : Nat) :
    ({ r with off := r.off + n } : Reader).remaining = r.remaining.drop n := by
  simp [Reader.remaining, List.drop_drop, Nat.add_comm]

theorem Uint32_lt (b : List UInt8) : LittleEndian.Uint32 b < 2 ^ 32 := by
  unfold LittleEndian.Uint32
  split
  · rename_i b0 b1 b2 b3
    have h0 := b0.toNat_lt
    have h1 := b1.toNat_lt
    have h2 := b2.toNat_lt
    have h3 := b3.toNat_lt
    omega
  · decide

theorem Uint32_PutUint32 (v : Nat) (hv : v < 2 ^ 32) :
    LittleEndian.Uint32 (LittleEndian.PutUint32 v) = v := by
  simp only [LittleEndian.PutUint32, LittleEndian.Uint32, UInt8.toNat, UInt8.ofNat,
    BitVec.toNat_ofNat]
  omega

theorem length_PutUint32 (v : Nat) : (LittleEndian.PutUint32 v).length = 4 := rfl

theorem binaryReadUint32_full (r : Reader) (cur : Nat) (h : 4 ≤ r.remaining.length) :
    binaryReadUint32 r cur =
      (none, LittleEndian.Uint32 (r.remaining.take 4), { r with off := r.off + 4 }) := by
  simp [binaryReadUint32, ReadFull, h]

theorem binaryReadUint32_short (r : Reader) (cur : Nat) (h : r.remaining.length < 4) :
    (binaryReadUint32 r cur).2.1 = cur := by
  have h' : ¬ 4 ≤ r.remaining.length := by omega
  unfold binaryReadUint32 ReadFull
  rw [if_neg h']
  by_cases h0 : r.remaining.length = 0
  · rw [if_pos h0]
  · rw [if_neg h0]

theorem readMagic_full (b : List UInt8) (cur : Nat) (h : 4 ≤ b.length) :
    binaryReadUint32 (NewReader b) cur = (none, streamMagic b, { data := b, off := 4 }) := by
  rw [binaryReadUint32_full _ _ (by rw [remaining_NewReader]; exact h), remaining_NewReader]
  simp [streamMagic, NewReader]

theorem readVersion_full (b : List UInt8) (cur : Nat) (h : 8 ≤ b.length) :
    binaryReadUint32 { data := b, off := 4 } cur =
      (none, streamVersion b, { data := b, off := 8 }) := by
  rw [binaryReadUint32_full _ _ (by simp [Reader.remaining]; omega)]
  simp [streamVersion, Reader.remaining]

theorem readVersion_short (b : List UInt8) (cur : Nat) (h : b.length < 8) :
    (binaryReadUint32 { data := b, off := 4 } cur).2.1 = cur :=
  binaryReadUint32_short _ _ (by simp [Reader.remaining]; omega)

theorem binaryReadUint32_PutUint32 (r : Reader) (cur v : Nat) (rest : List UInt8)
    (hv : v < 2 ^ 32) (hr : r.remaining = LittleEndian.PutUint32 v ++ rest) :
    binaryReadUint32 r cur = (none, v, { r with off := r.off + 4 }) := by
  rw [binaryReadUint32_full _ _ (by rw [hr]; simp [length_PutUint32]), hr]
  have ht : (LittleEndian.PutUint32 v ++ rest).take 4 = LittleEndian.PutUint32 v := by
    simp [LittleEndian.PutUint32]
  rw [ht, Uint32_PutUint32 v hv]

/-! ## Lemmas on `DecodeGGML` -/

theorem selectContainer_some (m : Nat) (c : container) (h : selectContainer m = some c) :
    (m = 0x67676d6c ∧ c = .GGML) ∨ (m = 0x67676d66 ∧ c = .GGMF 0) ∨
    (m = 0x67676a74 ∧ c = .GGJT 0) ∨ (m = 0x67676c61 ∧ c = .LORA 0) := by
  unfold selectContainer FILE_MAGIC_GGML FILE_MAGIC_GGMF FILE_MAGIC_GGJT FILE_MAGIC_GGLA at h
  split_ifs at h with h1 h2 h3 h4 <;> simp_all

theorem selectContainer_none (m : Nat) (h1 : m ≠ 0x67676d6c) (h2 : m ≠ 0x67676d66)
    (h3 : m ≠ 0x67676a74) (h4 : m ≠ 0x67676c61) : selectContainer m = none := by
  simp [selectContainer, FILE_MAGIC_GGML, FILE_MAGIC_GGMF, FILE_MAGIC_GGJT, FILE_MAGIC_GGLA,
    h1, h2, h3, h4]

/-- Inversion of a successful `DecodeGGML`: every step succeeded and the descriptor
is assembled from the values the steps produced. -/
theorem DecodeGGML_inv (L : llamaLayout) (r : Reader) (hint : String) (g : GGML)
    (h : (DecodeGGML L r hint).1 = some g) :
    ∃ c, selectContainer (binaryReadUint32 r 0).2.1 = some c ∧
      (container.Decode c (binaryReadUint32 r 0).2.2).1 = none ∧ hint = "llama" ∧
      g = { ModelType := hint
            magic := (binaryReadUint32 r 0).2.1
            container := some (container.Decode c (binaryReadUint32 r 0).2.2).2.1
            hyperparameters := some (binaryReadHyperparameters L
              (container.Decode c (binaryReadUint32 r 0).2.2).2.2
              (llamaHyperparameters.zero L)).2.1
            NumVocab := (binaryReadHyperparameters L
              (container.Decode c (binaryReadUint32 r 0).2.2).2.2
              (llamaHyperparameters.zero L)).2.1.NumVocab L
            FileType := ggmlFileType ((binaryReadHyperparameters L
              (container.Decode c (binaryReadUint32 r 0).2.2).2.2
              (llamaHyperparameters.zero L)).2.1.FileType L) } := by
  unfold DecodeGGML at h
  simp only [GGML.zero] at h
  split at h
  · simp at h
  · rename_i c hc
    refine ⟨c, hc, ?_⟩
    split at h
    · simp at h
    · rename_i hd
      refine ⟨hd, ?_⟩
      split_ifs at h with hh
      · refine ⟨hh, ?_⟩
        simp only [Option.some.injEq] at h
        exact h.symm

/-- The result of `DecodeGGML` on a stream of at least four bytes whose magic selects
the container `c`. -/
theorem DecodeGGML_of_magic (L : llamaLayout) (b : List UInt8) (hint : String) (c : container)
    (hl : 4 ≤ b.length) (hc : selectContainer (streamMagic b) = some c) :
    DecodeGGML L (NewReader b) hint =
      match (container.Decode c { data := b, off := 4 }).1 with
      | some err => (none, some err, (container.Decode c { data := b, off := 4 }).2.2)
      | none =>
        if hint = "llama" then
          (some { ModelType := hint
                  magic := streamMagic b
                  container := some (container.Decode c { data := b, off := 4 }).2.1
                  hyperparameters := some (binaryReadHyperparameters L
                    (container.Decode c { data := b, off := 4 }).2.2
                    (llamaHyperparameters.zero L)).2.1
                  NumVocab := (binaryReadHyperparameters L
                    (container.Decode c { data := b, off := 4 }).2.2
                    (llamaHyperparameters.zero L)).2.1.NumVocab L
                  FileType := ggmlFileType ((binaryReadHyperparameters L
                    (container.Decode c { data := b, off := 4 }).2.2
                    (llamaHyperparameters.zero L)).2.1.FileType L) },
            none,
            (binaryReadHyperparameters L (container.Decode c { data := b, off := 4 }).2.2
              (llamaHyperparameters.zero L)).2.2)
        else
          (none, some ("unsupported model type: " ++ hint),
            (container.Decode c { data := b, off := 4 }).2.2) := by
  unfold DecodeGGML
  rw [readMagic_full b _ hl]
  simp only [hc]

theorem containerGGMF_Decode_full (b : List UInt8) (c : Nat) (h : 8 ≤ b.length) :
    containerGGMF.Decode c { data := b, off := 4 } =
      if streamVersion b = 1 then (none, streamVersion b, { data := b, off := 8 })
      else (some "invalid version", c, { data := b, off := 8 }) := by
  unfold containerGGMF.Decode
  rw [readVersion_full b 0 h]

theorem containerGGJT_Decode_full (b : List UInt8) (c : Nat) (h : 8 ≤ b.length) :
    containerGGJT.Decode c { data := b, off := 4 } =
      if streamVersion b = 1 ∨ streamVersion b = 2 ∨ streamVersion b = 3 then
        (none, streamVersion b, { data := b, off := 8 })
      else (some "invalid version", c, { data := b, off := 8 }) := by
  unfold containerGGJT.Decode
  rw [readVersion_full b 0 h]

theorem containerLORA_Decode_full (b : List UInt8) (c : Nat) (h : 8 ≤ b.length) :
    containerLORA.Decode c { data := b, off := 4 } =
      if streamVersion b = 1 then (none, streamVersion b, { data := b, off := 8 })
      else (some "invalid version", c, { data := b, off := 8 }) := by
  unfold containerLORA.Decode
  rw [readVersion_full b 0 h]

theorem selectContainer_GGML : selectContainer 0x67676d6c = some .GGML := by decide

theorem selectContainer_GGMF : selectContainer 0x67676d66 = some (.GGMF 0) := by decide

theorem selectContainer_GGJT : selectContainer 0x67676a74 = some (.GGJT 0) := by decide

theorem selectContainer_GGLA : selectContainer 0x67676c61 = some (.LORA 0) := by decide

theorem binaryReadHyperparameters_full (L : llamaLayout) (r : Reader)
    (cur : llamaHyperparameters) (h : L.size ≤ r.remaining.length) :
    binaryReadHyperparameters L r cur =
      (none, { image := r.remaining.take L.size }, { r with off := r.off + L.size }) := by
  simp [binaryReadHyperparameters, ReadFull, h]

theorem binaryReadHyperparameters_short (L : llamaLayout) (r : Reader)
    (cur : llamaHyperparameters) (h : r.remaining.length < L.size) :
    binaryReadHyperparameters L r cur =
      (some (if r.remaining.length = 0 then "EOF" else "unexpected EOF"), cur,
        { r with off := max r.off r.data.length }) := by
  have h' : ¬ L.size ≤ r.remaining.length := by omega
  unfold binaryReadHyperparameters ReadFull
  rw [if_neg h']
  by_cases h0 : r.remaining.length = 0
  · rw [if_pos h0, if_pos h0]
    have : r.data.length ≤ r.off := by
      simp only [Reader.remaining, List.length_drop] at h0
      omega
    simp [Nat.max_eq_left this]
  · rw [if_neg h0, if_neg h0]
    have : r.off ≤ r.data.length := by
      simp only [Reader.remaining, List.length_drop] at h0
      omega
    simp [Nat.max_eq_right this]

theorem Uint32_replicate_zero (k : Nat) : LittleEndian.Uint32 (List.replicate k 0) = 0 := by
  match k with
  | 0 | 1 | 2 | 3 | 4 => rfl
  | k + 5 => rfl

theorem field_zero (L : llamaLayout) (o : Nat) : (llamaHyperparameters.zero L).field o = 0 := by
  simp only [llamaHyperparameters.field, llamaHyperparameters.zero, List.drop_replicate,
    List.take_replicate]
  exact Uint32_replicate_zero _

theorem ggmlFileType_natCast (n : Nat) (h : n < 2 ^ 32) : ggmlFileType (n : Int) = n := by
  unfold ggmlFileType
  omega

theorem containerGGMF_Decode_reader (c : Nat) (r : Reader) :
    (containerGGMF.Decode c r).2.2 = (binaryReadUint32 r 0).2.2 := by
  unfold containerGGMF.Decode
  dsimp only
  split <;> rfl

theorem containerGGJT_Decode_reader (c : Nat) (r : Reader) :
    (containerGGJT.Decode c r).2.2 = (binaryReadUint32 r 0).2.2 := by
  unfold containerGGJT.Decode
  dsimp only
  split <;> rfl

theorem containerLORA_Decode_reader (c : Nat) (r : Reader) :
    (containerLORA.Decode c r).2.2 = (binaryReadUint32 r 0).2.2 := by
  unfold containerLORA.Decode
  dsimp only
  split <;> rfl

theorem DecodeGGML_short (L : llamaLayout) (b : List UInt8) (hint : String)
    (h : b.length < 4) :
    (DecodeGGML L (NewReader b) hint).1 = none ∧
    (DecodeGGML L (NewReader b) hint).2.1 = some "invalid file magic" := by
  have h0 : (binaryReadUint32 (NewReader b) GGML.zero.magic).2.1 = 0 :=
    binaryReadUint32_short _ _ (by rw [remaining_NewReader]; exact h)
  have hs : selectContainer 0 = none := by decide
  unfold DecodeGGML
  simp only [h0, hs]
  exact ⟨trivial, trivial⟩

theorem containerGGMF_Decode_short (b : List UInt8) (c : Nat) (h : b.length < 8) :
    (containerGGMF.Decode c { data := b, off := 4 }).1 = some "invalid version" := by
  unfold containerGGMF.Decode
  simp only [readVersion_short b 0 h]
  rfl

theorem containerGGJT_Decode_short (b : List UInt8) (c : Nat) (h : b.length < 8) :
    (containerGGJT.Decode c { data := b, off := 4 }).1 = some "invalid version" := by
  unfold containerGGJT.Decode
  simp only [readVersion_short b 0 h]
  rfl

theorem containerLORA_Decode_short (b : List UInt8) (c : Nat) (h : b.length < 8) :
    (containerLORA.Decode c { data := b, off := 4 }).1 = some "invalid version" := by
  unfold containerLORA.Decode
  simp only [readVersion_short b 0 h]
  rfl

/-- The record read at offset `p` when fewer than `L.size` bytes remain: the record
keeps its zero value and the reader ends at the end of the stream. -/
theorem readRecord_truncated (L : llamaLayout) (b : List UInt8) (p : Nat)
    (hp : p ≤ b.length) (ht : b.length < p + L.size) :
    (binaryReadHyperparameters L { data := b, off := p } (llamaHyperparameters.zero L)).2 =
      (llamaHyperparameters.zero L, { data := b, off := b.length }) := by
  rw [binaryReadHyperparameters_short L _ _
    (by simp only [Reader.remaining, List.length_drop]; omega)]
  simp only [Nat.max_eq_right hp]

/-- The record read at offset `p` when at least `L.size` bytes remain. -/
theorem readRecord_full (L : llamaLayout) (b : List UInt8) (p : Nat)
    (hf : p + L.size ≤ b.length) (cur : llamaHyperparameters) :
    (binaryReadHyperparameters L { data := b, off := p } cur).2 =
      ({ image := (b.drop p).take L.size }, { data := b, off := p + L.size }) := by
  rw [binaryReadHyperparameters_full L _ _
    (by simp only [Reader.remaining, List.length_drop]; omega)]
  rfl

/-! ## Lemmas for streams of any length -/

theorem Uint32_of_length_ne (b : List UInt8) (h : b.length ≠ 4) : LittleEndian.Uint32 b = 0 := by
  unfold LittleEndian.Uint32
  split
  · simp at h
  · rfl

theorem streamMagic_short (b : List UInt8) (h : b.length < 4) : streamMagic b = 0 :=
  Uint32_of_length_ne _ (by simp only [List.length_take]; omega)

theorem streamVersion_short (b : List UInt8) (h : b.length < 8) : streamVersion b = 0 :=
  Uint32_of_length_ne _ (by simp only [List.length_take, List.length_drop]; omega)

theorem length_of_streamMagic_ne_zero (b : List UInt8) (h : streamMagic b ≠ 0) :
    4 ≤ b.length := by
  by_contra hn
  exact h (streamMagic_short b (by omega))

theorem length_of_streamVersion_ne_zero (b : List UInt8) (h : streamVersion b ≠ 0) :
    8 ≤ b.length := by
  by_contra hn
  exact h (streamVersion_short b (by omega))

/-- The magic `DecodeGGML` reads from a stream of any length. -/
theorem readMagic_val (b : List UInt8) :
    (binaryReadUint32 (NewReader b) 0).2.1 = streamMagic b := by
  by_cases h : 4 ≤ b.length
  · rw [readMagic_full b 0 h]
  · rw [binaryReadUint32_short _ _ (by rw [remaining_NewReader]; omega),
      streamMagic_short b (by omega)]

/-- The version a container reads at offset 4 of a stream of any length. -/
theorem readVersion_val (b : List UInt8) :
    (binaryReadUint32 { data := b, off := 4 } 0).2.1 = streamVersion b := by
  by_cases h : 8 ≤ b.length
  · rw [readVersion_full b 0 h]
  · rw [readVersion_short b 0 (by omega), streamVersion_short b (by omega)]

theorem containerGGMF_Decode_ok_iff (b : List UInt8) (c : Nat) :
    (containerGGMF.Decode c { data := b, off := 4 }).1 = none ↔ streamVersion b = 1 := by
  unfold containerGGMF.Decode
  simp only [readVersion_val]
  by_cases h : streamVersion b = 1
  · rw [if_pos h]
    exact ⟨fun _ => h, fun _ => rfl⟩
  · rw [if_neg h]
    exact ⟨fun e => by simp at e, fun e => absurd e h⟩

theorem containerGGJT_Decode_ok_iff (b : List UInt8) (c : Nat) :
    (containerGGJT.Decode c { data := b, off := 4 }).1 = none ↔
      (streamVersion b = 1 ∨ streamVersion b = 2 ∨ streamVersion b = 3) := by
  unfold containerGGJT.Decode
  simp only [readVersion_val]
  by_cases h : streamVersion b = 1 ∨ streamVersion b = 2 ∨ streamVersion b = 3
  · rw [if_pos h]
    exact ⟨fun _ => h, fun _ => rfl⟩
  · rw [if_neg h]
    exact ⟨fun e => by simp at e, fun e => absurd e h⟩

theorem containerLORA_Decode_ok_iff (b : List UInt8) (c : Nat) :
    (containerLORA.Decode c { data := b, off := 4 }).1 = none ↔ streamVersion b = 1 := by
  unfold containerLORA.Decode
  simp only [readVersion_val]
  by_cases h : streamVersion b = 1
  · rw [if_pos h]
    exact ⟨fun _ => h, fun _ => rfl⟩
  · rw [if_neg h]
    exact ⟨fun e => by simp at e, fun e => absurd e h⟩

/-- On success a versioned `Decode` stores the version it read. -/
theorem containerGGMF_Decode_stored (c : Nat) (r : Reader)
    (h : (containerGGMF.Decode c r).1 = none) :
    (containerGGMF.Decode c r).2.1 = (binaryReadUint32 r 0).2.1 ∧
    (binaryReadUint32 r 0).2.1 = 1 := by
  unfold containerGGMF.Decode at h ⊢
  dsimp only at h ⊢
  by_cases hv : (binaryReadUint32 r 0).2.1 = 1
  · rw [if_pos hv]
    exact ⟨rfl, hv⟩
  · rw [if_neg hv] at h
    simp at h

theorem containerGGJT_Decode_stored (c : Nat) (r : Reader)
    (h : (containerGGJT.Decode c r).1 = none) :
    (containerGGJT.Decode c r).2.1 = (binaryReadUint32 r 0).2.1 ∧
    ((binaryReadUint32 r 0).2.1 = 1 ∨ (binaryReadUint32 r 0).2.1 = 2 ∨
      (binaryReadUint32 r 0).2.1 = 3) := by
  unfold containerGGJT.Decode at h ⊢
  dsimp only at h ⊢
  by_cases hv : (binaryReadUint32 r 0).2.1 = 1 ∨ (binaryReadUint32 r 0).2.1 = 2 ∨
      (binaryReadUint32 r 0).2.1 = 3
  · rw [if_pos hv]
    exact ⟨rfl, hv⟩
  · rw [if_neg hv] at h
    simp at h

theorem containerLORA_Decode_stored (c : Nat) (r : Reader)
    (h : (containerLORA.Decode c r).1 = none) :
    (containerLORA.Decode c r).2.1 = (binaryReadUint32 r 0).2.1 ∧
    (binaryReadUint32 r 0).2.1 = 1 := by
  unfold containerLORA.Decode at h ⊢
  dsimp only at h ⊢
  by_cases hv : (binaryReadUint32 r 0).2.1 = 1
  · rw [if_pos hv]
    exact ⟨rfl, hv⟩
  · rw [if_neg hv] at h
    simp at h

/-! ## Closed forms of `DecodeGGML` with hint `llama` -/

/-- The result of `DecodeGGML` with hint `llama` on a legacy stream of any length. -/
theorem DecodeGGML_llama_GGML (L : llamaLayout) (b : List UInt8)
    (hm : streamMagic b = 0x67676d6c) :
    DecodeGGML L (NewReader b) "llama" =
      (some { ModelType := "llama", magic := 0x67676d6c, container := some .GGML
              hyperparameters := some (binaryReadHyperparameters L { data := b, off := 4 }
                (llamaHyperparameters.zero L)).2.1
              NumVocab := (binaryReadHyperparameters L { data := b, off := 4 }
                (llamaHyperparameters.zero L)).2.1.NumVocab L
              FileType := ggmlFileType ((binaryReadHyperparameters L { data := b, off := 4 }
                (llamaHyperparameters.zero L)).2.1.FileType L) },
        none,
        (binaryReadHyperparameters L { data := b, off := 4 }
          (llamaHyperparameters.zero L)).2.2) := by
  have hl : 4 ≤ b.length := length_of_streamMagic_ne_zero b (by rw [hm]; decide)
  rw [DecodeGGML_of_magic L b "llama" .GGML hl (by rw [hm]; exact selectContainer_GGML)]
  simp only [container.Decode, containerGGML.Decode, if_true, hm]

theorem DecodeGGML_llama_GGMF (L : llamaLayout) (b : List UInt8)
    (hm : streamMagic b = 0x67676d66) (hv : streamVersion b = 1) :
    DecodeGGML L (NewReader b) "llama" =
      (some { ModelType := "llama", magic := 0x67676d66
              container := some (.GGMF (streamVersion b))
              hyperparameters := some (binaryReadHyperparameters L { data := b, off := 8 }
                (llamaHyperparameters.zero L)).2.1
              NumVocab := (binaryReadHyperparameters L { data := b, off := 8 }
                (llamaHyperparameters.zero L)).2.1.NumVocab L
              FileType := ggmlFileType ((binaryReadHyperparameters L { data := b, off := 8 }
                (llamaHyperparameters.zero L)).2.1.FileType L) },
        none,
        (binaryReadHyperparameters L { data := b, off := 8 }
          (llamaHyperparameters.zero L)).2.2) := by
  have hl : 8 ≤ b.length := length_of_streamVersion_ne_zero b (by rw [hv]; decide)
  rw [DecodeGGML_of_magic L b "llama" _ (by omega) (by rw [hm]; exact selectContainer_GGMF)]
  simp only [container.Decode, containerGGMF_Decode_full b 0 hl, if_pos hv, if_true, hm]

theorem DecodeGGML_llama_GGJT (L : llamaLayout) (b : List UInt8)
    (hm : streamMagic b = 0x67676a74)
    (hv : streamVersion b = 1 ∨ streamVersion b = 2 ∨ streamVersion b = 3) :
    DecodeGGML L (NewReader b) "llama" =
      (some { ModelType := "llama", magic := 0x67676a74
              container := some (.GGJT (streamVersion b))
              hyperparameters := some (binaryReadHyperparameters L { data := b, off := 8 }
                (llamaHyperparameters.zero L)).2.1
              NumVocab := (binaryReadHyperparameters L { data := b, off := 8 }
                (llamaHyperparameters.zero L)).2.1.NumVocab L
              FileType := ggmlFileType ((binaryReadHyperparameters L { data := b, off := 8 }
                (llamaHyperparameters.zero L)).2.1.FileType L) },
        none,
        (binaryReadHyperparameters L { data := b, off := 8 }
          (llamaHyperparameters.zero L)).2.2) := by
  have hl : 8 ≤ b.length := length_of_streamVersion_ne_zero b (by omega)
  rw [DecodeGGML_of_magic L b "llama" _ (by omega) (by rw [hm]; exact selectContainer_GGJT)]
  simp only [container.Decode, containerGGJT_Decode_full b 0 hl, if_pos hv, if_true, hm]

theorem DecodeGGML_llama_GGLA (L : llamaLayout) (b : List UInt8)
    (hm : streamMagic b = 0x67676c61) (hv : streamVersion b = 1) :
    DecodeGGML L (NewReader b) "llama" =
      (some { ModelType := "llama", magic := 0x67676c61
              container := some (.LORA (streamVersion b))
              hyperparameters := some (binaryReadHyperparameters L { data := b, off := 8 }
                (llamaHyperparameters.zero L)).2.1
              NumVocab := (binaryReadHyperparameters L { data := b, off := 8 }
                (llamaHyperparameters.zero L)).2.1.NumVocab L
              FileType := ggmlFileType ((binaryReadHyperparameters L { data := b, off := 8 }
                (llamaHyperparameters.zero L)).2.1.FileType L) },
        none,
        (binaryReadHyperparameters L { data := b, off := 8 }
          (llamaHyperparameters.zero L)).2.2) := by
  have hl : 8 ≤ b.length := length_of_streamVersion_ne_zero b (by rw [hv]; decide)
  rw [DecodeGGML_of_magic L b "llama" _ (by omega) (by rw [hm]; exact selectContainer_GGLA)]
  simp only [container.Decode, containerLORA_Decode_full b 0 hl, if_pos hv, if_true, hm]

/-- What a successful `DecodeGGML` implies about the hint, the magic and the
version of the stream. -/
theorem DecodeGGML_success_cases (L : llamaLayout) (b : List UInt8) (hint : String) (g : GGML)
    (h : (DecodeGGML L (NewReader b) hint).1 = some g) :
    hint = "llama" ∧
    (streamMagic b = 0x67676d6c ∨
     (streamMagic b = 0x67676d66 ∧ streamVersion b = 1) ∨
     (streamMagic b = 0x67676a74 ∧
       (streamVersion b = 1 ∨ streamVersion b = 2 ∨ streamVersion b = 3)) ∨
     (streamMagic b = 0x67676c61 ∧ streamVersion b = 1)) := by
  obtain ⟨c, hc, hd, hh, -⟩ := DecodeGGML_inv L _ hint g h
  rw [readMagic_val] at hc
  have hl : 4 ≤ b.length := by
    apply length_of_streamMagic_ne_zero
    intro h0
    rw [h0] at hc
    rcases selectContainer_some _ _ hc with h1 | h1 | h1 | h1 <;> simp at h1
  rw [readMagic_full b 0 hl] at hd
  simp only at hd
  refine ⟨hh, ?_⟩
  rcases selectContainer_some _ _ hc with ⟨hm, rfl⟩ | ⟨hm, rfl⟩ | ⟨hm, rfl⟩ | ⟨hm, rfl⟩
  · exact Or.inl hm
  · exact Or.inr (Or.inl ⟨hm, (containerGGMF_Decode_ok_iff b 0).mp hd⟩)
  · exact Or.inr (Or.inr (Or.inl ⟨hm, (containerGGJT_Decode_ok_iff b 0).mp hd⟩))
  · exact Or.inr (Or.inr (Or.inr ⟨hm, (containerLORA_Decode_ok_iff b 0).mp hd⟩))

/-- A call of `DecodeGGML` returns a descriptor without an error, or an error without
a descriptor. -/
theorem DecodeGGML_exclusive (L : llamaLayout) (r : Reader) (hint : String) :
    ((DecodeGGML L r hint).1 = none ∧ ∃ e, (DecodeGGML L r hint).2.1 = some e) ∨
    ((∃ g, (DecodeGGML L r hint).1 = some g) ∧ (DecodeGGML L r hint).2.1 = none) := by
  unfold DecodeGGML
  dsimp only
  split
  · exact Or.inl ⟨rfl, _, rfl⟩
  · split
    · exact Or.inl ⟨rfl, _, rfl⟩
    · by_cases hh : hint = "llama"
      · rw [if_pos hh]
        exact Or.inr ⟨⟨_, rfl⟩, rfl⟩
      · rw [if_neg hh]
        exact Or.inl ⟨rfl, _, rfl⟩

/-! ## Streams that agree on a prefix -/

theorem take_of_take_eq (b c : List UInt8) (n k : Nat) (hk : k ≤ n)
    (h : c.take n = b.take n) : c.take k = b.take k := by
  have h1 := congrArg (List.take k) h
  rw [List.take_take, List.take_take, Nat.min_eq_left hk] at h1
  exact h1

theorem slice_of_take_eq (b c : List UInt8) (n p m : Nat) (hk : p + m ≤ n)
    (h : c.take n = b.take n) : (c.drop p).take m = (b.drop p).take m := by
  rw [List.take_drop, List.take_drop, take_of_take_eq b c n (p + m) hk h]

theorem length_of_take_eq (b c : List UInt8) (n : Nat) (hn : n ≤ b.length)
    (h : c.take n = b.take n) : n ≤ c.length := by
  have h1 := congrArg List.length h
  simp only [List.length_take] at h1
  omega

theorem streamMagic_of_take_eq (b c : List UInt8) (n : Nat) (hn : 4 ≤ n)
    (h : c.take n = b.take n) : streamMagic c = streamMagic b := by
  unfold streamMagic
  rw [take_of_take_eq b c n 4 hn h]

theorem streamVersion_of_take_eq (b c : List UInt8) (n : Nat) (hn : 8 ≤ n)
    (h : c.take n = b.take n) : streamVersion c = streamVersion b := by
  unfold streamVersion
  rw [slice_of_take_eq b c n 4 4 (by omega) h]

/-! ## Lemmas on `New` -/

theorem osOpen_none (w : World) (path : String) (h : (osOpen w path).1 = none) :
    (osOpen w path).2.2 = w := by
  unfold osOpen at h ⊢
  cases hl : w.lookup path with
  | none => rfl
  | some e =>
    rw [hl] at h
    dsimp only at h ⊢
    by_cases hr : e.readable = true
    · rw [if_pos hr] at h
      simp at h
    · rw [if_neg hr]

theorem osOpen_some (w : World) (path : String) (f : Nat × Reader)
    (h : (osOpen w path).1 = some f) :
    f.1 = w.nextHandle ∧
    (osOpen w path).2.2 =
      { w with openHandles := w.nextHandle :: w.openHandles, nextHandle := w.nextHandle + 1 } ∧
    (osOpen w path).2.1 = none ∧
    ∃ e, w.lookup path = some e ∧ e.readable = true ∧ f.2 = NewReader e.content := by
  unfold osOpen at h ⊢
  cases hl : w.lookup path with
  | none =>
    rw [hl] at h
    simp at h
  | some e =>
    rw [hl] at h
    dsimp only at h ⊢
    by_cases hr : e.readable = true
    · rw [if_pos hr] at h ⊢
      simp only [Option.some.injEq] at h
      subst h
      exact ⟨rfl, rfl, rfl, e, rfl, hr, rfl⟩
    · rw [if_neg hr] at h
      simp at h

/-- The world after `New`: the world as `os.Open` left it, or the initial world when
`os.Stat` failed. -/
theorem New_world {M O : Type} (L : llamaLayout) (newLlama : String → O → Option M × Option error)
    (w : World) (model : String) (opts : O) :
    (New L newLlama w model opts).2 =
      match osStat w model with
      | some _ => w
      | none => (osOpen w model).2.2 := by
  unfold New
  split
  · rfl
  · dsimp only
    split
    · rename_i heq
      rw [heq]
    · rename_i heq
      rw [heq]
      dsimp only
      split
      · rfl
      · split
        · rfl
        · split <;> rfl

/-- The outcome of `New`, path by path. -/
theorem New_outcome {M O : Type} (L : llamaLayout)
    (newLlama : String → O → Option M × Option error) (w : World) (model : String) (opts : O) :
    (∃ e, osStat w model = some e ∧
      (New L newLlama w model opts).1 = .returned none (some e)) ∨
    (osStat w model = none ∧ (osOpen w model).1 = none ∧
      (New L newLlama w model opts).1 = .returned none (osOpen w model).2.1) ∨
    (∃ f, osStat w model = none ∧ (osOpen w model).1 = some f ∧
      ((∃ e, (DecodeGGML L f.2 "llama").2.1 = some e ∧
          (New L newLlama w model opts).1 = .returned none (some e)) ∨
       ((DecodeGGML L f.2 "llama").2.1 = none ∧
          (New L newLlama w model opts).1 =
            .returned (newLlama model opts).1 (newLlama model opts).2))) := by
  unfold New
  split
  · rename_i e he
    exact Or.inl ⟨e, he, rfl⟩
  · rename_i hs
    dsimp only
    split
    · rename_i err w1 heq
      refine Or.inr (Or.inl ⟨hs, ?_, ?_⟩)
      · rw [heq]
      · rw [heq]
    · rename_i f err w1 heq
      refine Or.inr (Or.inr ⟨f, hs, by rw [heq], ?_⟩)
      rcases DecodeGGML_exclusive L f.2 "llama" with ⟨h1, e, h2⟩ | ⟨⟨g, h1⟩, h2⟩
      · refine Or.inl ⟨e, h2, ?_⟩
        rw [h2]
      · refine Or.inr ⟨h2, ?_⟩
        obtain ⟨c, -, -, -, hg⟩ := DecodeGGML_inv L f.2 "llama" g h1
        have hmt : g.ModelType = "llama" := by rw [hg]
        rw [h2, h1]
        dsimp only
        rw [if_pos hmt]

/-! ## Lemmas on labels and names -/

theorem String_of_not_mem (c : Nat)
    (hn : c ∉ [0, 1, 2, 3, 4, 8, 9, 10, 11, 12, 13, 14, 15]) : ggmlFileType.String c = "U" := by
  have e0 : ggmlFileType GGML_FTYPE_ALL_F32 = 0 := by decide
  have e1 : ggmlFileType GGML_FTYPE_MOSTLY_F16 = 1 := by decide
  have e2 : ggmlFileType GGML_FTYPE_MOSTLY_Q4_0 = 2 := by decide
  have e3 : ggmlFileType GGML_FTYPE_MOSTLY_Q4_1 = 3 := by decide
  have e4 : ggmlFileType GGML_FTYPE_MOSTLY_Q4_1_SOME_F16 = 4 := by decide
  have e8 : ggmlFileType GGML_FTYPE_MOSTLY_Q8_0 = 8 := by decide
  have e9 : ggmlFileType GGML_FTYPE_MOSTLY_Q5_0 = 9 := by decide
  have e10 : ggmlFileType GGML_FTYPE_MOSTLY_Q5_1 = 10 := by decide
  have e11 : ggmlFileType GGML_FTYPE_MOSTLY_Q2_K = 11 := by decide
  have e12 : ggmlFileType GGML_FTYPE_MOSTLY_Q3_K = 12 := by decide
  have e13 : ggmlFileType GGML_FTYPE_MOSTLY_Q4_K = 13 := by decide
  have e14 : ggmlFileType GGML_FTYPE_MOSTLY_Q5_K = 14 := by decide
  have e15 : ggmlFileType GGML_FTYPE_MOSTLY_Q6_K = 15 := by decide
  simp only [List.mem_cons, List.mem_singleton, List.not_mem_nil, or_false, not_or] at hn
  obtain ⟨h0, h1, h2, h3, h4, h8, h9, h10, h11, h12, h13, h14, h15⟩ := hn
  unfold ggmlFileType.String
  rw [e0, e1, e2, e3, e4, e8, e9, e10, e11, e12, e13, e14, e15,
    if_neg h0, if_neg h1, if_neg h2, if_neg h3, if_neg h4, if_neg h8, if_neg h9, if_neg h10,
    if_neg h11, if_neg h12, if_neg h13, if_neg h14, if_neg h15]

theorem mem_of_String_ne (c : Nat) (h : ggmlFileType.String c ≠ "U") :
    c = 0 ∨ c = 1 ∨ c = 2 ∨ c = 3 ∨ c = 4 ∨ c = 8 ∨ c = 9 ∨ c = 10 ∨ c = 11 ∨ c = 12 ∨
      c = 13 ∨ c = 14 ∨ c = 15 := by
  by_contra hn
  apply h
  apply String_of_not_mem
  simp only [List.mem_cons, List.mem_singleton, List.not_mem_nil, or_false]
  exact hn

theorem container_Decode_Name (c : container) (r : Reader) :
    (container.Decode c r).2.1.Name = c.Name := by
  cases c <;> rfl

theorem selectContainer_Name (m : Nat) (c : container) (h : selectContainer m = some c) :
    c.Name = magicName m := by
  rcases selectContainer_some m c h with ⟨rfl, rfl⟩ | ⟨rfl, rfl⟩ | ⟨rfl, rfl⟩ | ⟨rfl, rfl⟩ <;>
    decide

/-! ## The claims -/

/-- Claim C1. `ggmlFileType.String` returns the table label for each of the thirteen
assigned codes, and the constants derived from `iota + 3` take the values 8 to 15
(the codes 5, 6 and 7 stay unassigned). -/
theorem C1_String_table :
    (ggmlFileType.String 0 = "F32" ∧ ggmlFileType.String 1 = "F16" ∧
     ggmlFileType.String 2 = "Q4_0" ∧ ggmlFileType.String 3 = "Q4_1" ∧
     ggmlFileType.String 4 = "Q4_1_SOME_F16" ∧ ggmlFileType.String 8 = "Q8_0" ∧
     ggmlFileType.String 9 = "Q5_0" ∧ ggmlFileType.String 10 = "Q5_1" ∧
     ggmlFileType.String 11 = "Q2_K" ∧ ggmlFileType.String 12 = "Q3_K" ∧
     ggmlFileType.String 13 = "Q4_K" ∧ ggmlFileType.String 14 = "Q5_K" ∧
     ggmlFileType.String 15 = "Q6_K") ∧
    (GGML_FTYPE_ALL_F32 = 0 ∧ GGML_FTYPE_MOSTLY_F16 = 1 ∧ GGML_FTYPE_MOSTLY_Q4_0 = 2 ∧
     GGML_FTYPE_MOSTLY_Q4_1 = 3 ∧ GGML_FTYPE_MOSTLY_Q4_1_SOME_F16 = 4) ∧
    (GGML_FTYPE_MOSTLY_Q8_0 = 8 ∧ GGML_FTYPE_MOSTLY_Q5_0 = 9 ∧
     GGML_FTYPE_MOSTLY_Q5_1 = 10 ∧ GGML_FTYPE_MOSTLY_Q2_K = 11 ∧
     GGML_FTYPE_MOSTLY_Q3_K = 12 ∧ GGML_FTYPE_MOSTLY_Q4_K = 13 ∧
     GGML_FTYPE_MOSTLY_Q5_K = 14 ∧ GGML_FTYPE_MOSTLY_Q6_K = 15) := by
  refine ⟨?_, ?_, ?_⟩ <;> decide

/-- Claim C2. For every 32-bit code outside the table `ggmlFileType.String` returns
the label `"U"`; in particular for the reserved codes 5, 6 and 7, for the sentinel
`-1` (the pattern `0xFFFFFFFF`) and for 999; and the label of every 32-bit code is
a non-empty string. -/
theorem C2_String_default (c : Nat) (_hc : c < 2 ^ 32) :
    (c ∉ [0, 1, 2, 3, 4, 8, 9, 10, 11, 12, 13, 14, 15] → ggmlFileType.String c = "U") ∧
    ggmlFileType.String c ≠ "" ∧
    (ggmlFileType.String 5 = "U" ∧ ggmlFileType.String 6 = "U" ∧
     ggmlFileType.String 7 = "U" ∧ ggmlFileType.String 999 = "U" ∧
     ggmlFileType GGML_FTYPE_UNKNOWN = 0xFFFFFFFF ∧
     ggmlFileType.String (ggmlFileType GGML_FTYPE_UNKNOWN) = "U") := by
  have e0 : ggmlFileType GGML_FTYPE_ALL_F32 = 0 := by decide
  have e1 : ggmlFileType GGML_FTYPE_MOSTLY_F16 = 1 := by decide
  have e2 : ggmlFileType GGML_FTYPE_MOSTLY_Q4_0 = 2 := by decide
  have e3 : ggmlFileType GGML_FTYPE_MOSTLY_Q4_1 = 3 := by decide
  have e4 : ggmlFileType GGML_FTYPE_MOSTLY_Q4_1_SOME_F16 = 4 := by decide
  have e8 : ggmlFileType GGML_FTYPE_MOSTLY_Q8_0 = 8 := by decide
  have e9 : ggmlFileType GGML_FTYPE_MOSTLY_Q5_0 = 9 := by decide
  have e10 : ggmlFileType GGML_FTYPE_MOSTLY_Q5_1 = 10 := by decide
  have e11 : ggmlFileType GGML_FTYPE_MOSTLY_Q2_K = 11 := by decide
  have e12 : ggmlFileType GGML_FTYPE_MOSTLY_Q3_K = 12 := by decide
  have e13 : ggmlFileType GGML_FTYPE_MOSTLY_Q4_K = 13 := by decide
  have e14 : ggmlFileType GGML_FTYPE_MOSTLY_Q5_K = 14 := by decide
  have e15 : ggmlFileType GGML_FTYPE_MOSTLY_Q6_K = 15 := by decide
  refine ⟨?_, ?_, by decide⟩
  · intro hn
    simp only [List.mem_cons, List.mem_singleton, List.not_mem_nil, or_false, not_or] at hn
    obtain ⟨h0, h1, h2, h3, h4, h8, h9, h10, h11, h12, h13, h14, h15⟩ := hn
    unfold ggmlFileType.String
    rw [e0, e1, e2, e3, e4, e8, e9, e10, e11, e12, e13, e14, e15,
      if_neg h0, if_neg h1, if_neg h2, if_neg h3, if_neg h4, if_neg h8, if_neg h9, if_neg h10,
      if_neg h11, if_neg h12, if_neg h13, if_neg h14, if_neg h15]
  · unfold ggmlFileType.String
    repeat' apply ite_ne_of
    all_goals decide

/-- Witness for claim C2 at the reserved code 5. -/
theorem C2_String_default_witness :
    (5 : Nat) < 2 ^ 32 ∧ (5 : Nat) ∉ [0, 1, 2, 3, 4, 8, 9, 10, 11, 12, 13, 14, 15] ∧
    ggmlFileType.String 5 = "U" ∧ ggmlFileType.String 5 ≠ "" :=
  ⟨by decide, by decide, (C2_String_default 5 (by decide)).1 (by decide),
    (C2_String_default 5 (by decide)).2.1⟩

/-- Claim C3. Whenever `DecodeGGML` succeeds, the stream has at least four bytes, the
descriptor's magic is the little-endian value of the first four, and the
descriptor's container is the variant the identity table assigns to that magic,
with the matching `Name`; a stream starting with the bytes `6c 6d 67 67` selects
the legacy container. -/
theorem C3_magic_selects_container (L : llamaLayout) (b : List UInt8) (hint : String)
    (g : GGML) (h : (DecodeGGML L (NewReader b) hint).1 = some g) :
    (4 ≤ b.length ∧ g.magic = streamMagic b ∧
      ∃ c, g.container = some c ∧
        ((g.magic = 0x67676d6c ∧ c = .GGML ∧ c.Name = "ggml") ∨
         (g.magic = 0x67676d66 ∧ (∃ v, c = .GGMF v) ∧ c.Name = "ggmf") ∨
         (g.magic = 0x67676a74 ∧ (∃ v, c = .GGJT v) ∧ c.Name = "ggjt") ∨
         (g.magic = 0x67676c61 ∧ (∃ v, c = .LORA v) ∧ c.Name = "ggla"))) ∧
    (∀ rest : List UInt8, ∃ g1,
      (DecodeGGML L (NewReader (0x6c :: 0x6d :: 0x67 :: 0x67 :: rest)) "llama").1 = some g1 ∧
      g1.magic = 0x67676d6c ∧ g1.container = some .GGML) := by
  refine ⟨?_, ?_⟩
  · obtain ⟨c, hc, -, -, hg⟩ := DecodeGGML_inv L _ hint g h
    have hl : 4 ≤ b.length := by
      by_contra hn
      rw [binaryReadUint32_short _ _ (by rw [remaining_NewReader]; omega)] at hc
      rcases selectContainer_some _ _ hc with h1 | h1 | h1 | h1 <;> simp at h1
    rw [readMagic_full b 0 hl] at hc hg
    simp only at hc hg
    subst hg
    refine ⟨hl, rfl, ?_⟩
    rcases selectContainer_some _ _ hc with ⟨hm, rfl⟩ | ⟨hm, rfl⟩ | ⟨hm, rfl⟩ | ⟨hm, rfl⟩
    · exact ⟨_, rfl, Or.inl ⟨hm, rfl, rfl⟩⟩
    · exact ⟨_, rfl, Or.inr (Or.inl ⟨hm, ⟨_, rfl⟩, rfl⟩)⟩
    · exact ⟨_, rfl, Or.inr (Or.inr (Or.inl ⟨hm, ⟨_, rfl⟩, rfl⟩))⟩
    · exact ⟨_, rfl, Or.inr (Or.inr (Or.inr ⟨hm, ⟨_, rfl⟩, rfl⟩))⟩
  · intro rest
    have hc : selectContainer (streamMagic (0x6c :: 0x6d :: 0x67 :: 0x67 :: rest))
        = some .GGML := by
      show selectContainer (LittleEndian.Uint32 [0x6c, 0x6d, 0x67, 0x67]) = some .GGML
      decide
    have hm : streamMagic (0x6c :: 0x6d :: 0x67 :: 0x67 :: rest) = 0x67676d6c := by
      show LittleEndian.Uint32 [0x6c, 0x6d, 0x67, 0x67] = 0x67676d6c
      decide
    rw [DecodeGGML_of_magic L _ "llama" _ (by simp only [List.length_cons]; omega) hc, hm]
    exact ⟨_, rfl, rfl, rfl⟩

/-- Witness for claim C3: a `ggjt` stream of version 2 with a full record. -/
theorem C3_magic_selects_container_witness :
    (DecodeGGML llamaLayout.sevenWords
        (NewReader ([0x74, 0x6a, 0x67, 0x67, 2, 0, 0, 0] ++ List.replicate 28 7)) "llama").1
      = some { ModelType := "llama", magic := 0x67676a74, container := some (.GGJT 2),
               hyperparameters := some { image := List.replicate 28 7 },
               NumVocab := 0x07070707, FileType := 0x07070707 } ∧
    (0x67676a74 : Nat) =
      streamMagic ([0x74, 0x6a, 0x67, 0x67, 2, 0, 0, 0] ++ List.replicate 28 7) :=
  ⟨by decide,
    (C3_magic_selects_container llamaLayout.sevenWords
      ([0x74, 0x6a, 0x67, 0x67, 2, 0, 0, 0] ++ List.replicate 28 7) "llama"
      { ModelType := "llama", magic := 0x67676a74, container := some (.GGJT 2),
        hyperparameters := some { image := List.replicate 28 7 },
        NumVocab := 0x07070707, FileType := 0x07070707 } (by decide)).1.2.1⟩

/-- Claim C4. On a stream of at least four bytes whose little-endian magic is none of
the four table values, `DecodeGGML` returns no descriptor and the error
`invalid file magic` for every hint, and the reader has advanced by exactly four
bytes. -/
theorem C4_invalid_magic (L : llamaLayout) (b : List UInt8) (hint : String)
    (hl : 4 ≤ b.length)
    (h1 : streamMagic b ≠ 0x67676d6c) (h2 : streamMagic b ≠ 0x67676d66)
    (h3 : streamMagic b ≠ 0x67676a74) (h4 : streamMagic b ≠ 0x67676c61) :
    DecodeGGML L (NewReader b) hint =
      (none, some "invalid file magic", { data := b, off := 4 }) := by
  unfold DecodeGGML
  rw [readMagic_full b _ hl]
  simp only [selectContainer_none _ h1 h2 h3 h4]

/-- Witness for claim C4: the magic `0xdeadbeef` followed by further bytes, with a
supported hint. -/
theorem C4_invalid_magic_witness :
    DecodeGGML llamaLayout.sevenWords (NewReader [0xef, 0xbe, 0xad, 0xde, 1, 0, 0, 0]) "llama" =
      (none, some "invalid file magic",
        { data := [0xef, 0xbe, 0xad, 0xde, 1, 0, 0, 0], off := 4 }) :=
  C4_invalid_magic llamaLayout.sevenWords [0xef, 0xbe, 0xad, 0xde, 1, 0, 0, 0] "llama"
    (by decide) (by decide) (by decide) (by decide) (by decide)

/-- Claim C5. On a reader whose next four bytes encode the version `v`, the `Decode`
of each versioned container returns no error exactly when `v` is accepted by that
variant: `1` for `containerGGMF`, `1`, `2` or `3` for `containerGGJT`, `1` for
`containerLORA`; every other version yields an error. -/
theorem C5_version_accepted_iff (r : Reader) (v c : Nat) (rest : List UInt8)
    (hv : v < 2 ^ 32) (hr : r.remaining = LittleEndian.PutUint32 v ++ rest) :
    (((containerGGMF.Decode c r).1 = none ↔ v = 1) ∧
     ((containerGGJT.Decode c r).1 = none ↔ v = 1 ∨ v = 2 ∨ v = 3) ∧
     ((containerLORA.Decode c r).1 = none ↔ v = 1)) ∧
    ((v ≠ 1 → (containerGGMF.Decode c r).1.isSome = true) ∧
     (¬ (v = 1 ∨ v = 2 ∨ v = 3) → (containerGGJT.Decode c r).1.isSome = true) ∧
     (v ≠ 1 → (containerLORA.Decode c r).1.isSome = true)) ∧
    ((∀ w ∈ [0, 2, 0xFFFFFFFF],
        (containerGGMF.Decode c (NewReader (LittleEndian.PutUint32 w))).1.isSome = true ∧
        (containerLORA.Decode c (NewReader (LittleEndian.PutUint32 w))).1.isSome = true) ∧
     (∀ w ∈ [0, 4, 99, 0xFFFFFFFF],
        (containerGGJT.Decode c (NewReader (LittleEndian.PutUint32 w))).1.isSome = true)) := by
  have hrd := binaryReadUint32_PutUint32 r 0 v rest hv hr
  refine ⟨⟨?_, ?_, ?_⟩, ⟨?_, ?_, ?_⟩, ?_, ?_⟩
  · unfold containerGGMF.Decode
    rw [hrd]
    by_cases h : v = 1 <;> simp [h]
  · unfold containerGGJT.Decode
    rw [hrd]
    by_cases h : v = 1 ∨ v = 2 ∨ v = 3
    · rw [if_pos h]
      exact ⟨fun _ => h, fun _ => rfl⟩
    · rw [if_neg h]
      exact ⟨fun e => by simp at e, fun e => absurd e h⟩
  · unfold containerLORA.Decode
    rw [hrd]
    by_cases h : v = 1 <;> simp [h]
  · intro h
    unfold containerGGMF.Decode
    rw [hrd]
    simp [h]
  · intro h
    unfold containerGGJT.Decode
    rw [hrd]
    simp only [if_neg h]
    rfl
  · intro h
    unfold containerLORA.Decode
    rw [hrd]
    simp [h]
  · intro w hw
    simp only [List.mem_cons, List.mem_singleton, List.not_mem_nil, or_false] at hw
    rcases hw with rfl | rfl | rfl <;> exact ⟨rfl, rfl⟩
  · intro w hw
    simp only [List.mem_cons, List.mem_singleton, List.not_mem_nil, or_false] at hw
    rcases hw with rfl | rfl | rfl | rfl <;> rfl

/-- Witness for claim C5: version 3 read at offset 4 of a `ggjt` stream. -/
theorem C5_version_accepted_iff_witness :
    (containerGGMF.Decode 0 { data := [0x74, 0x6a, 0x67, 0x67, 3, 0, 0, 0, 9], off := 4 }).1.isSome
      = true ∧
    (containerGGJT.Decode 0 { data := [0x74, 0x6a, 0x67, 0x67, 3, 0, 0, 0, 9], off := 4 }).1
      = none :=
  have h := C5_version_accepted_iff
    { data := [0x74, 0x6a, 0x67, 0x67, 3, 0, 0, 0, 9], off := 4 } 3 0 [9] (by decide) (by decide)
  ⟨h.2.1.1 (by decide), h.1.2.1.mpr (by decide)⟩

/-- Claim C6 as stated fails. The versions 0 and 4 are distinct and both rejected by
`containerGGJT.Decode`, and the versions 0 and 2 by `containerGGMF.Decode`, yet the
errors returned are the same `invalid version`: the error does not carry the
offending value. -/
theorem C6_error_carries_version_counterexample :
    (0 : Nat) ≠ 4 ∧
    (containerGGJT.Decode 0 (NewReader (LittleEndian.PutUint32 0))).1 = some "invalid version" ∧
    (containerGGJT.Decode 0 (NewReader (LittleEndian.PutUint32 4))).1 = some "invalid version" ∧
    (containerGGJT.Decode 0 (NewReader (LittleEndian.PutUint32 0))).1 =
      (containerGGJT.Decode 0 (NewReader (LittleEndian.PutUint32 4))).1 ∧
    (0 : Nat) ≠ 2 ∧
    (containerGGMF.Decode 0 (NewReader (LittleEndian.PutUint32 0))).1 =
      (containerGGMF.Decode 0 (NewReader (LittleEndian.PutUint32 2))).1 := by
  decide

/-- Claim C6, amended. When the `Decode` of a versioned container rejects the version
`v` it read, the error it returns is the fixed text `invalid version`, the same for
every rejected version. -/
theorem C6_invalid_version_error (r : Reader) (v c : Nat) (rest : List UInt8)
    (hv : v < 2 ^ 32) (hr : r.remaining = LittleEndian.PutUint32 v ++ rest) :
    (v ≠ 1 → (containerGGMF.Decode c r).1 = some "invalid version") ∧
    (¬ (v = 1 ∨ v = 2 ∨ v = 3) → (containerGGJT.Decode c r).1 = some "invalid version") ∧
    (v ≠ 1 → (containerLORA.Decode c r).1 = some "invalid version") := by
  have hrd := binaryReadUint32_PutUint32 r 0 v rest hv hr
  refine ⟨?_, ?_, ?_⟩
  · intro h
    unfold containerGGMF.Decode
    rw [hrd]
    simp only [if_neg h]
  · intro h
    unfold containerGGJT.Decode
    rw [hrd]
    simp only [if_neg h]
  · intro h
    unfold containerLORA.Decode
    rw [hrd]
    simp only [if_neg h]

/-- Witness for claim C6: version 99 after a `ggjt` magic. -/
theorem C6_invalid_version_error_witness :
    (containerGGJT.Decode 0 { data := [0x74, 0x6a, 0x67, 0x67, 99, 0, 0, 0], off := 4 }).1
      = some "invalid version" ∧
    (containerLORA.Decode 0 { data := [0x74, 0x6a, 0x67, 0x67, 99, 0, 0, 0], off := 4 }).1
      = some "invalid version" :=
  have h := C6_invalid_version_error
    { data := [0x74, 0x6a, 0x67, 0x67, 99, 0, 0, 0], off := 4 } 99 0 [] (by decide) (by decide)
  ⟨h.2.1 (by decide), h.2.2 (by decide)⟩

/-- Claim C7. For every hint other than `llama` and every stream with a valid container
prefix, `DecodeGGML` returns no descriptor and the error `unsupported model type: `
followed by the hint itself, and the reader stands right after the prefix: at
offset 4 for the legacy container, at offset 8 for a versioned one. -/
theorem C7_unsupported_hint (L : llamaLayout) (b : List UInt8) (hint : String)
    (hh : hint ≠ "llama") :
    (4 ≤ b.length → streamMagic b = 0x67676d6c →
      DecodeGGML L (NewReader b) hint =
        (none, some ("unsupported model type: " ++ hint), { data := b, off := 4 })) ∧
    (8 ≤ b.length →
      (streamMagic b = 0x67676d66 ∧ streamVersion b = 1) ∨
      (streamMagic b = 0x67676a74 ∧
        (streamVersion b = 1 ∨ streamVersion b = 2 ∨ streamVersion b = 3)) ∨
      (streamMagic b = 0x67676c61 ∧ streamVersion b = 1) →
      DecodeGGML L (NewReader b) hint =
        (none, some ("unsupported model type: " ++ hint), { data := b, off := 8 })) := by
  refine ⟨?_, ?_⟩
  · intro hl hm
    rw [DecodeGGML_of_magic L b hint .GGML hl (by rw [hm]; exact selectContainer_GGML)]
    simp only [container.Decode, containerGGML.Decode, if_neg hh]
  · intro hl hv
    have hl4 : 4 ≤ b.length := by omega
    rcases hv with ⟨hm, hv⟩ | ⟨hm, hv⟩ | ⟨hm, hv⟩
    · rw [DecodeGGML_of_magic L b hint _ hl4 (by rw [hm]; exact selectContainer_GGMF)]
      simp only [container.Decode, containerGGMF_Decode_full b 0 hl, if_pos hv, if_neg hh]
    · rw [DecodeGGML_of_magic L b hint _ hl4 (by rw [hm]; exact selectContainer_GGJT)]
      simp only [container.Decode, containerGGJT_Decode_full b 0 hl, if_pos hv, if_neg hh]
    · rw [DecodeGGML_of_magic L b hint _ hl4 (by rw [hm]; exact selectContainer_GGLA)]
      simp only [container.Decode, containerLORA_Decode_full b 0 hl, if_pos hv, if_neg hh]

/-- Witness for claim C7: the hint `gpt2` on a legacy stream and on a `ggjt` stream of
version 3, each followed by further bytes. -/
theorem C7_unsupported_hint_witness :
    DecodeGGML llamaLayout.sevenWords (NewReader [0x6c, 0x6d, 0x67, 0x67, 5, 6]) "gpt2" =
      (none, some "unsupported model type: gpt2",
        { data := [0x6c, 0x6d, 0x67, 0x67, 5, 6], off := 4 }) ∧
    DecodeGGML llamaLayout.sevenWords
        (NewReader [0x74, 0x6a, 0x67, 0x67, 3, 0, 0, 0, 5, 6]) "gpt2" =
      (none, some "unsupported model type: gpt2",
        { data := [0x74, 0x6a, 0x67, 0x67, 3, 0, 0, 0, 5, 6], off := 8 }) :=
  ⟨(C7_unsupported_hint llamaLayout.sevenWords [0x6c, 0x6d, 0x67, 0x67, 5, 6] "gpt2"
      (by decide)).1 (by decide) (by decide),
    (C7_unsupported_hint llamaLayout.sevenWords
      [0x74, 0x6a, 0x67, 0x67, 3, 0, 0, 0, 5, 6] "gpt2" (by decide)).2 (by decide)
      (by decide)⟩

/-- Claim C8. On a stream that holds a versioned magic followed by a version outside
the accepted set, `DecodeGGML` returns the container's `invalid version` error for
every hint, supported or not, and the reader has advanced by exactly eight bytes:
the hint is never examined and no hyperparameter byte is read. -/
theorem C8_version_error_before_hint (L : llamaLayout) (b : List UInt8) (hint : String)
    (hl : 8 ≤ b.length)
    (hv : (streamMagic b = 0x67676d66 ∧ streamVersion b ≠ 1) ∨
      (streamMagic b = 0x67676a74 ∧
        ¬ (streamVersion b = 1 ∨ streamVersion b = 2 ∨ streamVersion b = 3)) ∨
      (streamMagic b = 0x67676c61 ∧ streamVersion b ≠ 1)) :
    DecodeGGML L (NewReader b) hint =
      (none, some "invalid version", { data := b, off := 8 }) := by
  have hl4 : 4 ≤ b.length := by omega
  rcases hv with ⟨hm, hv⟩ | ⟨hm, hv⟩ | ⟨hm, hv⟩
  · rw [DecodeGGML_of_magic L b hint _ hl4 (by rw [hm]; exact selectContainer_GGMF)]
    simp only [container.Decode, containerGGMF_Decode_full b 0 hl, if_neg hv]
  · rw [DecodeGGML_of_magic L b hint _ hl4 (by rw [hm]; exact selectContainer_GGJT)]
    simp only [container.Decode, containerGGJT_Decode_full b 0 hl, if_neg hv]
  · rw [DecodeGGML_of_magic L b hint _ hl4 (by rw [hm]; exact selectContainer_GGLA)]
    simp only [container.Decode, containerLORA_Decode_full b 0 hl, if_neg hv]

/-- Witness for claim C8: a `ggjt` stream of version 99 with the unregistered hint
`gpt2`. -/
theorem C8_version_error_before_hint_witness :
    DecodeGGML llamaLayout.sevenWords
        (NewReader [0x74, 0x6a, 0x67, 0x67, 99, 0, 0, 0, 5, 6]) "gpt2" =
      (none, some "invalid version",
        { data := [0x74, 0x6a, 0x67, 0x67, 99, 0, 0, 0, 5, 6], off := 8 }) :=
  C8_version_error_before_hint llamaLayout.sevenWords
    [0x74, 0x6a, 0x67, 0x67, 99, 0, 0, 0, 5, 6] "gpt2" (by decide)
    (Or.inr (Or.inl (by decide)))

/-- Claim C9 as stated fails. A legacy stream that ends right after the magic, and a
`ggjt` stream of version 1 that ends seven bytes into the record, are both decoded
successfully with hint `llama`: the failed record read is ignored and the
descriptor carries the zero record. -/
theorem C9_truncated_record_counterexample :
    DecodeGGML llamaLayout.sevenWords (NewReader [0x6c, 0x6d, 0x67, 0x67]) "llama" =
      (some { ModelType := "llama", magic := 0x67676d6c, container := some .GGML,
              hyperparameters := some { image := List.replicate 28 0 },
              NumVocab := 0, FileType := 0 },
        none, { data := [0x6c, 0x6d, 0x67, 0x67], off := 4 }) ∧
    DecodeGGML llamaLayout.sevenWords
        (NewReader [0x74, 0x6a, 0x67, 0x67, 1, 0, 0, 0, 0, 0x7d, 0, 0, 1, 2, 3]) "llama" =
      (some { ModelType := "llama", magic := 0x67676a74, container := some (.GGJT 1),
              hyperparameters := some { image := List.replicate 28 0 },
              NumVocab := 0, FileType := 0 },
        none,
        { data := [0x74, 0x6a, 0x67, 0x67, 1, 0, 0, 0, 0, 0x7d, 0, 0, 1, 2, 3], off := 15 }) := by
  decide

/-- Claim C9, amended. With hint `llama`: a stream that ends inside the magic is
rejected with `invalid file magic`, and a stream that ends inside the version of a
versioned container is rejected with `invalid version`, in both cases without a
descriptor; a stream that holds a valid container prefix followed by a truncated or
empty record is decoded successfully, the descriptor carrying the zero record
(`NumVocab` 0, `FileType` 0), and the reader ends at the end of the stream. -/
theorem C9_truncated_header (L : llamaLayout) (b : List UInt8) :
    (b.length < 4 →
      (DecodeGGML L (NewReader b) "llama").1 = none ∧
      (DecodeGGML L (NewReader b) "llama").2.1 = some "invalid file magic") ∧
    (4 ≤ b.length → b.length < 8 →
      streamMagic b = 0x67676d66 ∨ streamMagic b = 0x67676a74 ∨ streamMagic b = 0x67676c61 →
      (DecodeGGML L (NewReader b) "llama").1 = none ∧
      (DecodeGGML L (NewReader b) "llama").2.1 = some "invalid version") ∧
    (4 ≤ b.length → streamMagic b = 0x67676d6c → b.length < 4 + L.size →
      DecodeGGML L (NewReader b) "llama" =
        (some { ModelType := "llama", magic := streamMagic b, container := some .GGML,
                hyperparameters := some (llamaHyperparameters.zero L),
                NumVocab := 0, FileType := 0 },
          none, { data := b, off := b.length })) ∧
    (8 ≤ b.length → b.length < 8 + L.size →
      ∀ c : container,
      (streamMagic b = 0x67676d66 ∧ streamVersion b = 1 ∧ c = .GGMF 1) ∨
      (streamMagic b = 0x67676a74 ∧
        (streamVersion b = 1 ∨ streamVersion b = 2 ∨ streamVersion b = 3) ∧
        c = .GGJT (streamVersion b)) ∨
      (streamMagic b = 0x67676c61 ∧ streamVersion b = 1 ∧ c = .LORA 1) →
      DecodeGGML L (NewReader b) "llama" =
        (some { ModelType := "llama", magic := streamMagic b, container := some c,
                hyperparameters := some (llamaHyperparameters.zero L),
                NumVocab := 0, FileType := 0 },
          none, { data := b, off := b.length })) := by
  have hz : ggmlFileType ((0 : Nat) : Int) = 0 := by decide
  have hn : (llamaHyperparameters.zero L).NumVocab L = 0 := field_zero L _
  have hf : (llamaHyperparameters.zero L).FileType L = 0 := field_zero L _
  refine ⟨DecodeGGML_short L b "llama", ?_, ?_, ?_⟩
  · intro hl hs hm
    rcases hm with hm | hm | hm
    · rw [DecodeGGML_of_magic L b "llama" _ hl (by rw [hm]; exact selectContainer_GGMF)]
      simp only [container.Decode, containerGGMF_Decode_short b 0 hs]
      exact ⟨trivial, trivial⟩
    · rw [DecodeGGML_of_magic L b "llama" _ hl (by rw [hm]; exact selectContainer_GGJT)]
      simp only [container.Decode, containerGGJT_Decode_short b 0 hs]
      exact ⟨trivial, trivial⟩
    · rw [DecodeGGML_of_magic L b "llama" _ hl (by rw [hm]; exact selectContainer_GGLA)]
      simp only [container.Decode, containerLORA_Decode_short b 0 hs]
      exact ⟨trivial, trivial⟩
  · intro hl hm ht
    rw [DecodeGGML_of_magic L b "llama" .GGML hl (by rw [hm]; exact selectContainer_GGML)]
    simp only [container.Decode, containerGGML.Decode, if_true,
      readRecord_truncated L b 4 hl ht, hn, hf, hz]
  · intro hl ht c hv
    have hl4 : 4 ≤ b.length := by omega
    rcases hv with ⟨hm, hv, rfl⟩ | ⟨hm, hv, rfl⟩ | ⟨hm, hv, rfl⟩
    · rw [DecodeGGML_of_magic L b "llama" _ hl4 (by rw [hm]; exact selectContainer_GGMF)]
      simp only [container.Decode, containerGGMF_Decode_full b 0 hl, if_pos hv, if_true,
        readRecord_truncated L b 8 hl ht, hn, hf, hz]
      rw [hv]
    · rw [DecodeGGML_of_magic L b "llama" _ hl4 (by rw [hm]; exact selectContainer_GGJT)]
      simp only [container.Decode, containerGGJT_Decode_full b 0 hl, if_pos hv, if_true,
        readRecord_truncated L b 8 hl ht, hn, hf, hz]
    · rw [DecodeGGML_of_magic L b "llama" _ hl4 (by rw [hm]; exact selectContainer_GGLA)]
      simp only [container.Decode, containerLORA_Decode_full b 0 hl, if_pos hv, if_true,
        readRecord_truncated L b 8 hl ht, hn, hf, hz]
      rw [hv]

/-- Witness for claim C9: a two-byte stream, a `ggmf` magic followed by two bytes, a
legacy stream with a five-byte record, and a `ggla` stream of version 1 with a
three-byte record. -/
theorem C9_truncated_header_witness :
    (DecodeGGML llamaLayout.sevenWords (NewReader [0x6c, 0x6d]) "llama").2.1
      = some "invalid file magic" ∧
    (DecodeGGML llamaLayout.sevenWords (NewReader [0x66, 0x6d, 0x67, 0x67, 1, 0]) "llama").2.1
      = some "invalid version" ∧
    (DecodeGGML llamaLayout.sevenWords
        (NewReader [0x6c, 0x6d, 0x67, 0x67, 9, 9, 9, 9, 9]) "llama").2.1 = none ∧
    (DecodeGGML llamaLayout.sevenWords
        (NewReader [0x61, 0x6c, 0x67, 0x67, 1, 0, 0, 0, 9, 9, 9]) "llama").2.1 = none :=
  ⟨((C9_truncated_header llamaLayout.sevenWords [0x6c, 0x6d]).1 (by decide)).2,
    ((C9_truncated_header llamaLayout.sevenWords [0x66, 0x6d, 0x67, 0x67, 1, 0]).2.1
      (by decide) (by decide) (Or.inl (by decide))).2,
    congrArg (fun x => x.2.1)
      ((C9_truncated_header llamaLayout.sevenWords
        [0x6c, 0x6d, 0x67, 0x67, 9, 9, 9, 9, 9]).2.2.1 (by decide) (by decide) (by decide)),
    congrArg (fun x => x.2.1)
      ((C9_truncated_header llamaLayout.sevenWords
        [0x61, 0x6c, 0x67, 0x67, 1, 0, 0, 0, 9, 9, 9]).2.2.2 (by decide) (by decide)
        (.LORA 1) (Or.inr (Or.inr (by decide))))⟩

/-- Claim C10. Every descriptor `DecodeGGML` returns has `ModelType` equal to the hint,
which is `llama`; its stored hyperparameters are a record `hp` such that `NumVocab`
is `hp.NumVocab` and `FileType` is `hp.FileType` converted to `ggmlFileType` (the
same 32-bit value); and when the stream contains the full header, `hp` is the record
decoded from the bytes that follow the container prefix. -/
theorem C10_descriptor_fields (L : llamaLayout) (b : List UInt8) (hint : String) (g : GGML)
    (h : (DecodeGGML L (NewReader b) hint).1 = some g) :
    g.ModelType = hint ∧ hint = "llama" ∧
    ∃ hp : llamaHyperparameters, g.hyperparameters = some hp ∧
      g.NumVocab = hp.NumVocab L ∧
      g.FileType = ggmlFileType (hp.FileType L) ∧
      g.FileType = hp.FileType L ∧
      (streamMagic b = 0x67676d6c → 4 + L.size ≤ b.length →
        hp = { image := (b.drop 4).take L.size }) ∧
      (streamMagic b ≠ 0x67676d6c → 8 + L.size ≤ b.length →
        hp = { image := (b.drop 8).take L.size }) := by
  obtain ⟨c, hc, hd, hh, hg⟩ := DecodeGGML_inv L _ hint g h
  have hl : 4 ≤ b.length := by
    by_contra hn
    rw [binaryReadUint32_short _ _ (by rw [remaining_NewReader]; omega)] at hc
    rcases selectContainer_some _ _ hc with h1 | h1 | h1 | h1 <;> simp at h1
  rw [readMagic_full b 0 hl] at hc hd hg
  simp only at hc hd hg
  subst hg
  refine ⟨rfl, hh, _, rfl, rfl, rfl, ?_, ?_, ?_⟩
  · exact ggmlFileType_natCast _ (Uint32_lt _)
  · intro hm hf
    rw [hm] at hc
    rw [selectContainer_GGML] at hc
    cases hc
    exact congrArg Prod.fst (readRecord_full L b 4 hf _)
  · intro hm hf
    have hl8 : 8 ≤ b.length := by omega
    have hr8 := readVersion_full b 0 hl8
    rcases selectContainer_some _ _ hc with ⟨h1, rfl⟩ | ⟨-, rfl⟩ | ⟨-, rfl⟩ | ⟨-, rfl⟩
    · exact absurd h1 hm
    · simp only [container.Decode, containerGGMF_Decode_reader, hr8]
      exact congrArg Prod.fst (readRecord_full L b 8 hf _)
    · simp only [container.Decode, containerGGJT_Decode_reader, hr8]
      exact congrArg Prod.fst (readRecord_full L b 8 hf _)
    · simp only [container.Decode, containerLORA_Decode_reader, hr8]
      exact congrArg Prod.fst (readRecord_full L b 8 hf _)

/-- Witness for claim C10: a `ggjt` stream of version 3 whose record has vocabulary size
32000 and quantization code 2, followed by two further bytes. -/
theorem C10_descriptor_fields_witness :
    (DecodeGGML llamaLayout.sevenWords
        (NewReader ([0x74, 0x6a, 0x67, 0x67, 3, 0, 0, 0, 0, 0x7d, 0, 0] ++
          List.replicate 20 0 ++ [2, 0, 0, 0, 0xaa, 0xbb])) "llama").1
      = some { ModelType := "llama", magic := 0x67676a74, container := some (.GGJT 3),
               hyperparameters := some
                 { image := [0, 0x7d, 0, 0] ++ List.replicate 20 0 ++ [2, 0, 0, 0] },
               NumVocab := 32000, FileType := 2 } ∧
    ("llama" : String) = "llama" :=
  ⟨by decide,
    (C10_descriptor_fields llamaLayout.sevenWords
      ([0x74, 0x6a, 0x67, 0x67, 3, 0, 0, 0, 0, 0x7d, 0, 0] ++
          List.replicate 20 0 ++ [2, 0, 0, 0, 0xaa, 0xbb]) "llama"
      { ModelType := "llama", magic := 0x67676a74, container := some (.GGJT 3),
        hyperparameters := some
          { image := [0, 0x7d, 0, 0] ++ List.replicate 20 0 ++ [2, 0, 0, 0] },
        NumVocab := 32000, FileType := 2 } (by decide)).2.1⟩

/-- Claim C11. When the `Decode` of a versioned container accepts the version it
read, the `version` field holds exactly that value afterwards (for `containerGGJT`
one of 1, 2, 3); a stream with magic `0x67676a74` and version 2 is decoded with hint
`llama` into a descriptor whose container is named `ggjt` and stores version 2; and
in every descriptor `DecodeGGML` returns, a versioned container stores the version
found at bytes 4 to 7 of the stream. -/
theorem C11_version_stored (r : Reader) (v c : Nat) (rest : List UInt8)
    (hv : v < 2 ^ 32) (hr : r.remaining = LittleEndian.PutUint32 v ++ rest) :
    ((containerGGMF.Decode c r).1 = none → (containerGGMF.Decode c r).2.1 = v) ∧
    ((containerGGJT.Decode c r).1 = none →
      (containerGGJT.Decode c r).2.1 = v ∧ (v = 1 ∨ v = 2 ∨ v = 3)) ∧
    ((containerLORA.Decode c r).1 = none → (containerLORA.Decode c r).2.1 = v) ∧
    (∀ (L : llamaLayout) (tail : List UInt8), ∃ g,
      (DecodeGGML L
        (NewReader (0x74 :: 0x6a :: 0x67 :: 0x67 :: 2 :: 0 :: 0 :: 0 :: tail)) "llama").1
          = some g ∧
      g.container = some (.GGJT 2) ∧ (container.GGJT 2).Name = "ggjt" ∧
      (container.GGJT 2).version = some 2) ∧
    (∀ (L : llamaLayout) (b : List UInt8) (hint : String) (g : GGML),
      (DecodeGGML L (NewReader b) hint).1 = some g →
      (streamMagic b = 0x67676d66 → g.container = some (.GGMF (streamVersion b))) ∧
      (streamMagic b = 0x67676a74 → g.container = some (.GGJT (streamVersion b)) ∧
        (streamVersion b = 1 ∨ streamVersion b = 2 ∨ streamVersion b = 3)) ∧
      (streamMagic b = 0x67676c61 → g.container = some (.LORA (streamVersion b)))) := by
  have hrd : (binaryReadUint32 r 0).2.1 = v := by
    rw [binaryReadUint32_PutUint32 r 0 v rest hv hr]
  refine ⟨?_, ?_, ?_, ?_, ?_⟩
  · intro h
    rw [(containerGGMF_Decode_stored c r h).1, hrd]
  · intro h
    have h2 := containerGGJT_Decode_stored c r h
    rw [hrd] at h2
    exact h2
  · intro h
    rw [(containerLORA_Decode_stored c r h).1, hrd]
  · intro L tail
    have hl : 8 ≤ (0x74 :: 0x6a :: 0x67 :: 0x67 :: 2 :: 0 :: 0 :: 0 :: tail).length := by
      simp only [List.length_cons]
      omega
    have hc : selectContainer
        (streamMagic (0x74 :: 0x6a :: 0x67 :: 0x67 :: 2 :: 0 :: 0 :: 0 :: tail))
        = some (.GGJT 0) := by
      show selectContainer (LittleEndian.Uint32 [0x74, 0x6a, 0x67, 0x67]) = some (.GGJT 0)
      decide
    have hver : streamVersion (0x74 :: 0x6a :: 0x67 :: 0x67 :: 2 :: 0 :: 0 :: 0 :: tail) = 2 := by
      show LittleEndian.Uint32 [2, 0, 0, 0] = 2
      decide
    rw [DecodeGGML_of_magic L _ "llama" _ (by omega) hc]
    simp only [container.Decode, containerGGJT_Decode_full _ 0 hl, hver]
    exact ⟨_, rfl, rfl, rfl, rfl⟩
  · intro L b hint g h
    obtain ⟨c0, hc, hd, -, hg⟩ := DecodeGGML_inv L _ hint g h
    rw [readMagic_val] at hc
    have hl : 4 ≤ b.length := by
      apply length_of_streamMagic_ne_zero
      intro h0
      rw [h0] at hc
      rcases selectContainer_some _ _ hc with h1 | h1 | h1 | h1 <;> simp at h1
    rw [readMagic_full b 0 hl] at hd hg
    simp only at hd hg
    subst hg
    refine ⟨?_, ?_, ?_⟩
    · intro hm
      rw [hm, selectContainer_GGMF] at hc
      cases hc
      have h2 := containerGGMF_Decode_stored 0 _ hd
      simp only [container.Decode, h2.1, readVersion_val]
    · intro hm
      rw [hm, selectContainer_GGJT] at hc
      cases hc
      have h2 := containerGGJT_Decode_stored 0 _ hd
      rw [readVersion_val] at h2
      refine ⟨?_, h2.2⟩
      simp only [container.Decode, h2.1]
    · intro hm
      rw [hm, selectContainer_GGLA] at hc
      cases hc
      have h2 := containerLORA_Decode_stored 0 _ hd
      simp only [container.Decode, h2.1, readVersion_val]

/-- Witness for claim C11: version 3 read by `containerGGJT.Decode` at offset 4. -/
theorem C11_version_stored_witness :
    (containerGGJT.Decode 0 { data := [0x74, 0x6a, 0x67, 0x67, 3, 0, 0, 0, 9], off := 4 }).2.1
      = 3 ∧
    (containerGGJT.Decode 0 { data := [0x74, 0x6a, 0x67, 0x67, 3, 0, 0, 0, 9], off := 4 }).1
      = none :=
  ⟨((C11_version_stored { data := [0x74, 0x6a, 0x67, 0x67, 3, 0, 0, 0, 9], off := 4 } 3 0 [9]
      (by decide) (by decide)).2.1 (by decide)).1, by decide⟩

/-- Claim C12. The legacy `Decode` returns `nil` on every reader and leaves it where
it was; each versioned `Decode`, on a reader with at least four bytes remaining,
advances the reader by exactly four bytes, whether the version is accepted or
rejected. -/
theorem C12_bytes_consumed (r : Reader) (c : Nat) :
    (containerGGML.Decode r = (none, r) ∧
      container.Decode .GGML r = (none, .GGML, r)) ∧
    (4 ≤ r.remaining.length →
      (containerGGMF.Decode c r).2.2 = { r with off := r.off + 4 } ∧
      (containerGGJT.Decode c r).2.2 = { r with off := r.off + 4 } ∧
      (containerLORA.Decode c r).2.2 = { r with off := r.off + 4 }) := by
  refine ⟨⟨rfl, rfl⟩, ?_⟩
  intro h
  rw [containerGGMF_Decode_reader, containerGGJT_Decode_reader, containerLORA_Decode_reader,
    binaryReadUint32_full r 0 h]
  exact ⟨rfl, rfl, rfl⟩

/-- Witness for claim C12: version 99 at offset 4 is rejected by all three variants
and version 1 is accepted by all three; the reader ends at offset 8 each time. -/
theorem C12_bytes_consumed_witness :
    ((containerGGJT.Decode 0 { data := [0, 0, 0, 0, 99, 0, 0, 0, 9], off := 4 }).1
        = some "invalid version" ∧
      (containerGGJT.Decode 0 { data := [0, 0, 0, 0, 99, 0, 0, 0, 9], off := 4 }).2.2
        = { data := [0, 0, 0, 0, 99, 0, 0, 0, 9], off := 8 }) ∧
    ((containerGGMF.Decode 0 { data := [0, 0, 0, 0, 1, 0, 0, 0, 9], off := 4 }).1 = none ∧
      (containerGGMF.Decode 0 { data := [0, 0, 0, 0, 1, 0, 0, 0, 9], off := 4 }).2.2
        = { data := [0, 0, 0, 0, 1, 0, 0, 0, 9], off := 8 }) :=
  ⟨⟨by decide,
      ((C12_bytes_consumed { data := [0, 0, 0, 0, 99, 0, 0, 0, 9], off := 4 } 0).2
        (by decide)).2.1⟩,
    ⟨by decide,
      ((C12_bytes_consumed { data := [0, 0, 0, 0, 1, 0, 0, 0, 9], off := 4 } 0).2
        (by decide)).1⟩⟩

/-- Claim C13. When `DecodeGGML` succeeds on a stream that contains the full header,
the reader ends exactly `n` bytes into the stream, where `n` is 4 for the magic, plus
0 for the legacy container or 4 for a versioned one, plus the size of the record;
and every stream that agrees with it on these `n` bytes yields the same descriptor
and is consumed to the same offset. -/
theorem C13_header_bytes_only (L : llamaLayout) (b c : List UInt8) (hint : String)
    (g : GGML) (n : Nat)
    (hn : n = (if streamMagic b = 0x67676d6c then 4 else 8) + L.size)
    (hfull : n ≤ b.length) (hagree : c.take n = b.take n)
    (h : (DecodeGGML L (NewReader b) hint).1 = some g) :
    (DecodeGGML L (NewReader b) hint).2.2 = { data := b, off := n } ∧
    DecodeGGML L (NewReader c) hint = (some g, none, { data := c, off := n }) := by
  obtain ⟨hh, hcases⟩ := DecodeGGML_success_cases L b hint g h
  subst hh
  have hfull' : n ≤ c.length := length_of_take_eq b c n hfull hagree
  rcases hcases with hm | ⟨hm, hv⟩ | ⟨hm, hv⟩ | ⟨hm, hv⟩
  · rw [if_pos hm] at hn
    subst hn
    have hm' : streamMagic c = 0x67676d6c := by
      rw [streamMagic_of_take_eq b c _ (by omega) hagree, hm]
    have e1 := readRecord_full L b 4 hfull (llamaHyperparameters.zero L)
    have e2 := readRecord_full L c 4 hfull' (llamaHyperparameters.zero L)
    have hs := slice_of_take_eq b c _ 4 L.size (Nat.le_refl _) hagree
    rw [DecodeGGML_llama_GGML L b hm, e1] at h
    rw [DecodeGGML_llama_GGML L b hm, DecodeGGML_llama_GGML L c hm', e1, e2, hs]
    simp only [Option.some.injEq] at h
    rw [h]
    exact ⟨rfl, rfl⟩
  · have hne : streamMagic b ≠ 0x67676d6c := by rw [hm]; decide
    rw [if_neg hne] at hn
    subst hn
    have hm' : streamMagic c = 0x67676d66 := by
      rw [streamMagic_of_take_eq b c _ (by omega) hagree, hm]
    have hv0 : streamVersion c = streamVersion b :=
      streamVersion_of_take_eq b c _ (by omega) hagree
    have hv' : streamVersion c = 1 := by rw [hv0, hv]
    have e1 := readRecord_full L b 8 hfull (llamaHyperparameters.zero L)
    have e2 := readRecord_full L c 8 hfull' (llamaHyperparameters.zero L)
    have hs := slice_of_take_eq b c _ 8 L.size (Nat.le_refl _) hagree
    rw [DecodeGGML_llama_GGMF L b hm hv, e1] at h
    rw [DecodeGGML_llama_GGMF L b hm hv, DecodeGGML_llama_GGMF L c hm' hv', e1, e2, hs, hv0]
    simp only [Option.some.injEq] at h
    rw [h]
    exact ⟨rfl, rfl⟩
  · have hne : streamMagic b ≠ 0x67676d6c := by rw [hm]; decide
    rw [if_neg hne] at hn
    subst hn
    have hm' : streamMagic c = 0x67676a74 := by
      rw [streamMagic_of_take_eq b c _ (by omega) hagree, hm]
    have hv0 : streamVersion c = streamVersion b :=
      streamVersion_of_take_eq b c _ (by omega) hagree
    have hv' : streamVersion c = 1 ∨ streamVersion c = 2 ∨ streamVersion c = 3 := by
      rw [hv0]
      exact hv
    have e1 := readRecord_full L b 8 hfull (llamaHyperparameters.zero L)
    have e2 := readRecord_full L c 8 hfull' (llamaHyperparameters.zero L)
    have hs := slice_of_take_eq b c _ 8 L.size (Nat.le_refl _) hagree
    rw [DecodeGGML_llama_GGJT L b hm hv, e1] at h
    rw [DecodeGGML_llama_GGJT L b hm hv, DecodeGGML_llama_GGJT L c hm' hv', e1, e2, hs, hv0]
    simp only [Option.some.injEq] at h
    rw [h]
    exact ⟨rfl, rfl⟩
  · have hne : streamMagic b ≠ 0x67676d6c := by rw [hm]; decide
    rw [if_neg hne] at hn
    subst hn
    have hm' : streamMagic c = 0x67676c61 := by
      rw [streamMagic_of_take_eq b c _ (by omega) hagree, hm]
    have hv0 : streamVersion c = streamVersion b :=
      streamVersion_of_take_eq b c _ (by omega) hagree
    have hv' : streamVersion c = 1 := by rw [hv0, hv]
    have e1 := readRecord_full L b 8 hfull (llamaHyperparameters.zero L)
    have e2 := readRecord_full L c 8 hfull' (llamaHyperparameters.zero L)
    have hs := slice_of_take_eq b c _ 8 L.size (Nat.le_refl _) hagree
    rw [DecodeGGML_llama_GGLA L b hm hv, e1] at h
    rw [DecodeGGML_llama_GGLA L b hm hv, DecodeGGML_llama_GGLA L c hm' hv', e1, e2, hs, hv0]
    simp only [Option.some.injEq] at h
    rw [h]
    exact ⟨rfl, rfl⟩

/-- Witness for claim C13: two `ggjt` streams of version 2 with the same 28-byte
record and different bytes after it. -/
theorem C13_header_bytes_only_witness :
    (DecodeGGML llamaLayout.sevenWords
        (NewReader ([0x74, 0x6a, 0x67, 0x67, 2, 0, 0, 0] ++ List.replicate 28 7 ++ [0xaa, 0xbb]))
        "llama").2.2 =
      { data := [0x74, 0x6a, 0x67, 0x67, 2, 0, 0, 0] ++ List.replicate 28 7 ++ [0xaa, 0xbb],
        off := 36 } ∧
    DecodeGGML llamaLayout.sevenWords
        (NewReader ([0x74, 0x6a, 0x67, 0x67, 2, 0, 0, 0] ++ List.replicate 28 7 ++ [1, 2, 3]))
        "llama" =
      (some { ModelType := "llama", magic := 0x67676a74, container := some (.GGJT 2),
              hyperparameters := some { image := List.replicate 28 7 },
              NumVocab := 0x07070707, FileType := 0x07070707 },
        none,
        { data := [0x74, 0x6a, 0x67, 0x67, 2, 0, 0, 0] ++ List.replicate 28 7 ++ [1, 2, 3],
          off := 36 }) :=
  C13_header_bytes_only llamaLayout.sevenWords
    ([0x74, 0x6a, 0x67, 0x67, 2, 0, 0, 0] ++ List.replicate 28 7 ++ [0xaa, 0xbb])
    ([0x74, 0x6a, 0x67, 0x67, 2, 0, 0, 0] ++ List.replicate 28 7 ++ [1, 2, 3]) "llama"
    { ModelType := "llama", magic := 0x67676a74, container := some (.GGJT 2),
      hyperparameters := some { image := List.replicate 28 7 },
      NumVocab := 0x07070707, FileType := 0x07070707 }
    36 (by decide) (by decide) (by decide) (by decide)

/-- Claim C14. For every reader and every hint, `DecodeGGML` returns exactly one of a
descriptor and an error: the descriptor is nil exactly when the error is non-nil.
A returned descriptor is fully populated: its `ModelType` is the non-empty hint
`llama`, and its container and hyperparameters are set. -/
theorem C14_descriptor_or_error (L : llamaLayout) (r : Reader) (hint : String) :
    ((DecodeGGML L r hint).1 = none ↔ (DecodeGGML L r hint).2.1 ≠ none) ∧
    ((DecodeGGML L r hint).1 ≠ none ↔ (DecodeGGML L r hint).2.1 = none) ∧
    (∀ g, (DecodeGGML L r hint).1 = some g →
      g.ModelType = "llama" ∧ g.ModelType ≠ "" ∧
      g.container ≠ none ∧ g.hyperparameters ≠ none) := by
  refine ⟨?_, ?_, ?_⟩
  · rcases DecodeGGML_exclusive L r hint with ⟨h1, e, h2⟩ | ⟨⟨g, h1⟩, h2⟩
    · rw [h1, h2]
      simp
    · rw [h1, h2]
      simp
  · rcases DecodeGGML_exclusive L r hint with ⟨h1, e, h2⟩ | ⟨⟨g, h1⟩, h2⟩
    · rw [h1, h2]
      simp
    · rw [h1, h2]
      simp
  · intro g h
    obtain ⟨c, -, -, hh, hg⟩ := DecodeGGML_inv L r hint g h
    subst hg
    subst hh
    have hne : ("llama" : String) ≠ "" := by decide
    exact ⟨rfl, hne, by simp, by simp⟩

/-- Witness for claim C14: a three-byte stream gives an error and no descriptor, a
legacy stream with a record gives a descriptor and no error. -/
theorem C14_descriptor_or_error_witness :
    ((DecodeGGML llamaLayout.sevenWords (NewReader [0x6c, 0x6d, 0x67]) "llama").1 = none ∧
      (DecodeGGML llamaLayout.sevenWords (NewReader [0x6c, 0x6d, 0x67]) "llama").2.1 ≠ none) ∧
    ((DecodeGGML llamaLayout.sevenWords
        (NewReader ([0x6c, 0x6d, 0x67, 0x67] ++ List.replicate 28 1)) "llama").1 ≠ none ∧
      (DecodeGGML llamaLayout.sevenWords
        (NewReader ([0x6c, 0x6d, 0x67, 0x67] ++ List.replicate 28 1)) "llama").2.1 = none) :=
  ⟨⟨by decide,
      (C14_descriptor_or_error llamaLayout.sevenWords (NewReader [0x6c, 0x6d, 0x67])
        "llama").1.mp (by decide)⟩,
    ⟨by decide,
      (C14_descriptor_or_error llamaLayout.sevenWords
        (NewReader ([0x6c, 0x6d, 0x67, 0x67] ++ List.replicate 28 1)) "llama").2.1.mp
        (by decide)⟩⟩

/-- Claim C15 as stated fails. In the sample world `New` opens handle 3 for `m.bin`,
decodes the header, calls the backend constructor and returns its model, and handle 3
is still open afterwards; the same holds for `bad.bin`, on which `DecodeGGML` fails.
Closing the handle would have produced a different world. -/
theorem C15_handle_released_counterexample :
    (3 ∉ sampleWorld.openHandles ∧
      (osOpen sampleWorld "m.bin").1.map Prod.fst = some 3) ∧
    ((New llamaLayout.sevenWords sampleNewLlama sampleWorld "m.bin" ()).1
        = .returned (some 7) none ∧
      3 ∈ (New llamaLayout.sevenWords sampleNewLlama sampleWorld "m.bin" ()).2.openHandles ∧
      (New llamaLayout.sevenWords sampleNewLlama sampleWorld "m.bin" ()).2 ≠
        osClose (New llamaLayout.sevenWords sampleNewLlama sampleWorld "m.bin" ()).2 3) ∧
    ((New llamaLayout.sevenWords sampleNewLlama sampleWorld "bad.bin" ()).1
        = .returned none (some "invalid file magic") ∧
      3 ∈ (New llamaLayout.sevenWords sampleNewLlama sampleWorld "bad.bin" ()).2.openHandles) := by
  decide

/-- Claim C15, amended. `New` never closes the handle it opened: whenever `os.Stat`
and `os.Open` succeed, the world after `New` is the world as `os.Open` left it, with
the opened handle still open, whether `DecodeGGML` failed or the backend constructor
returned; when `os.Stat` or `os.Open` fails, no handle was opened and the world is
unchanged. -/
theorem C15_handle_left_open {M O : Type} (L : llamaLayout)
    (newLlama : String → O → Option M × Option error) (w : World) (model : String) (opts : O) :
    (∀ f, osStat w model = none → (osOpen w model).1 = some f →
      (New L newLlama w model opts).2 = (osOpen w model).2.2 ∧
      f.1 ∈ (New L newLlama w model opts).2.openHandles) ∧
    ((osStat w model ≠ none ∨ (osOpen w model).1 = none) →
      (New L newLlama w model opts).2 = w) := by
  have hw := New_world L newLlama w model opts
  refine ⟨?_, ?_⟩
  · intro f hs ho
    rw [hs] at hw
    dsimp only at hw
    obtain ⟨hf, hw2, -, -⟩ := osOpen_some w model f ho
    refine ⟨hw, ?_⟩
    rw [hw, hw2, hf]
    exact List.mem_cons_self _ _
  · intro h
    cases hs : osStat w model with
    | some e =>
      rw [hs] at hw
      exact hw
    | none =>
      rw [hs] at hw
      dsimp only at hw
      rcases h with h | h
      · exact absurd hs h
      · rw [hw, osOpen_none w model h]

/-- Witness for claim C15: the three files of the sample world and a missing one. -/
theorem C15_handle_left_open_witness :
    (3 ∈ (New llamaLayout.sevenWords sampleNewLlama sampleWorld "m.bin" ()).2.openHandles ∧
      3 ∈ (New llamaLayout.sevenWords sampleNewLlama sampleWorld "bad.bin" ()).2.openHandles) ∧
    ((New llamaLayout.sevenWords sampleNewLlama sampleWorld "locked.bin" ()).2 = sampleWorld ∧
      (New llamaLayout.sevenWords sampleNewLlama sampleWorld "none.bin" ()).2 = sampleWorld) :=
  ⟨⟨((C15_handle_left_open llamaLayout.sevenWords sampleNewLlama sampleWorld "m.bin" ()).1
        (3, NewReader ([0x6c, 0x6d, 0x67, 0x67] ++ List.replicate 28 1))
        (by decide) (by decide)).2,
      ((C15_handle_left_open llamaLayout.sevenWords sampleNewLlama sampleWorld "bad.bin" ()).1
        (3, NewReader [1, 2, 3, 4, 5]) (by decide) (by decide)).2⟩,
    ⟨(C15_handle_left_open llamaLayout.sevenWords sampleNewLlama sampleWorld "locked.bin" ()).2
        (Or.inr (by decide)),
      (C15_handle_left_open llamaLayout.sevenWords sampleNewLlama sampleWorld "none.bin" ()).2
        (Or.inl (by decide))⟩⟩

/-- Claim C16. For every stream and every hint, `DecodeGGML` succeeds exactly when
the magic is `0x67676d6c`, or `0x67676d66` or `0x67676c61` with version 1, or
`0x67676a74` with version 1, 2 or 3, and the hint is the string `llama`.  The
condition does not mention the record, so no content of the record causes a failure;
a record whose quantization code is the unassigned 7 is decoded. -/
theorem C16_success_iff (L : llamaLayout) (b : List UInt8) (hint : String) :
    ((DecodeGGML L (NewReader b) hint).2.1 = none ↔
      (streamMagic b = 0x67676d6c ∨
       (streamMagic b = 0x67676d66 ∧ streamVersion b = 1) ∨
       (streamMagic b = 0x67676a74 ∧
         (streamVersion b = 1 ∨ streamVersion b = 2 ∨ streamVersion b = 3)) ∨
       (streamMagic b = 0x67676c61 ∧ streamVersion b = 1)) ∧ hint = "llama") ∧
    ((DecodeGGML L (NewReader b) hint).1.isSome = true ↔
      (DecodeGGML L (NewReader b) hint).2.1 = none) ∧
    (∀ rec : List UInt8, rec.length = L.size →
      ∃ g, (DecodeGGML L (NewReader (0x6c :: 0x6d :: 0x67 :: 0x67 :: rec)) "llama").1 = some g ∧
        g.hyperparameters = some { image := rec }) := by
  have hex : (DecodeGGML L (NewReader b) hint).1.isSome = true ↔
      (DecodeGGML L (NewReader b) hint).2.1 = none := by
    rcases DecodeGGML_exclusive L (NewReader b) hint with ⟨h1, e, h2⟩ | ⟨⟨g, h1⟩, h2⟩
    · rw [h1, h2]
      simp
    · rw [h1, h2]
      simp
  refine ⟨⟨?_, ?_⟩, hex, ?_⟩
  · intro h
    have h1 := hex.mpr h
    obtain ⟨g, hg⟩ := Option.isSome_iff_exists.mp h1
    obtain ⟨hh, hc⟩ := DecodeGGML_success_cases L b hint g hg
    exact ⟨hc, hh⟩
  · rintro ⟨hc, rfl⟩
    rcases hc with hm | ⟨hm, hv⟩ | ⟨hm, hv⟩ | ⟨hm, hv⟩
    · rw [DecodeGGML_llama_GGML L b hm]
    · rw [DecodeGGML_llama_GGMF L b hm hv]
    · rw [DecodeGGML_llama_GGJT L b hm hv]
    · rw [DecodeGGML_llama_GGLA L b hm hv]
  · intro rec hrec
    have hm : streamMagic (0x6c :: 0x6d :: 0x67 :: 0x67 :: rec) = 0x67676d6c := by
      show LittleEndian.Uint32 [0x6c, 0x6d, 0x67, 0x67] = 0x67676d6c
      decide
    have hr := readRecord_full L (0x6c :: 0x6d :: 0x67 :: 0x67 :: rec) 4
      (by simp only [List.length_cons]; omega) (llamaHyperparameters.zero L)
    have hd : ((0x6c :: 0x6d :: 0x67 :: 0x67 :: rec).drop 4).take L.size = rec := by
      show rec.take L.size = rec
      rw [← hrec]
      exact List.take_length _
    rw [DecodeGGML_llama_GGML L _ hm, hr, hd]
    exact ⟨_, rfl, rfl⟩

/-- Witness for claim C16: a `ggla` stream of version 1 whose record holds the
unassigned quantization code 7 is decoded; the same stream with hint `Llama` and a
`ggmf` stream of version 2 are not. -/
theorem C16_success_iff_witness :
    (DecodeGGML llamaLayout.sevenWords
        (NewReader ([0x61, 0x6c, 0x67, 0x67, 1, 0, 0, 0] ++ List.replicate 24 0 ++ [7, 0, 0, 0]))
        "llama").2.1 = none ∧
    (DecodeGGML llamaLayout.sevenWords
        (NewReader ([0x61, 0x6c, 0x67, 0x67, 1, 0, 0, 0] ++ List.replicate 24 0 ++ [7, 0, 0, 0]))
        "Llama").2.1 ≠ none ∧
    (DecodeGGML llamaLayout.sevenWords
        (NewReader ([0x66, 0x6d, 0x67, 0x67, 2, 0, 0, 0] ++ List.replicate 28 0))
        "llama").2.1 ≠ none :=
  ⟨(C16_success_iff llamaLayout.sevenWords
      ([0x61, 0x6c, 0x67, 0x67, 1, 0, 0, 0] ++ List.replicate 24 0 ++ [7, 0, 0, 0])
      "llama").1.mpr (by decide),
    fun h => absurd ((C16_success_iff llamaLayout.sevenWords
      ([0x61, 0x6c, 0x67, 0x67, 1, 0, 0, 0] ++ List.replicate 24 0 ++ [7, 0, 0, 0])
      "Llama").1.mp h).2 (by decide),
    fun h => absurd ((C16_success_iff llamaLayout.sevenWords
      ([0x66, 0x6d, 0x67, 0x67, 2, 0, 0, 0] ++ List.replicate 28 0)
      "llama").1.mp h).1 (by decide)⟩

/-- Claim C17. A read that fails leaves the value zero, and zero is neither a table
magic nor an accepted version: every stream shorter than four bytes, the empty one
included, makes `DecodeGGML` fail with `invalid file magic` for every hint, and every
stream that consists of a versioned magic followed by fewer than four bytes makes it
fail with `invalid version` for every hint. -/
theorem C17_short_stream_rejected (L : llamaLayout) (b : List UInt8) (hint : String) :
    (b.length < 4 →
      (binaryReadUint32 (NewReader b) 0).2.1 = 0 ∧
      (DecodeGGML L (NewReader b) hint).1 = none ∧
      (DecodeGGML L (NewReader b) hint).2.1 = some "invalid file magic") ∧
    (4 ≤ b.length → b.length < 8 →
      streamMagic b = 0x67676d66 ∨ streamMagic b = 0x67676a74 ∨ streamMagic b = 0x67676c61 →
      (binaryReadUint32 { data := b, off := 4 } 0).2.1 = 0 ∧
      (DecodeGGML L (NewReader b) hint).1 = none ∧
      (DecodeGGML L (NewReader b) hint).2.1 = some "invalid version") ∧
    (selectContainer 0 = none ∧
      (DecodeGGML L (NewReader []) hint).2.1 = some "invalid file magic") := by
  refine ⟨?_, ?_, by decide, (DecodeGGML_short L [] hint (by decide)).2⟩
  · intro h
    exact ⟨binaryReadUint32_short _ _ (by rw [remaining_NewReader]; exact h),
      DecodeGGML_short L b hint h⟩
  · intro hl hs hm
    refine ⟨readVersion_short b 0 hs, ?_⟩
    rcases hm with hm | hm | hm
    · rw [DecodeGGML_of_magic L b hint _ hl (by rw [hm]; exact selectContainer_GGMF)]
      simp only [container.Decode, containerGGMF_Decode_short b 0 hs]
      exact ⟨trivial, trivial⟩
    · rw [DecodeGGML_of_magic L b hint _ hl (by rw [hm]; exact selectContainer_GGJT)]
      simp only [container.Decode, containerGGJT_Decode_short b 0 hs]
      exact ⟨trivial, trivial⟩
    · rw [DecodeGGML_of_magic L b hint _ hl (by rw [hm]; exact selectContainer_GGLA)]
      simp only [container.Decode, containerLORA_Decode_short b 0 hs]
      exact ⟨trivial, trivial⟩

/-- Witness for claim C17: a three-byte stream, and a `ggjt` magic followed by three
bytes, with the unregistered hint `gpt2`. -/
theorem C17_short_stream_rejected_witness :
    (DecodeGGML llamaLayout.sevenWords (NewReader [0x74, 0x6a, 0x67]) "gpt2").2.1
      = some "invalid file magic" ∧
    (DecodeGGML llamaLayout.sevenWords (NewReader [0x74, 0x6a, 0x67, 0x67, 1, 0, 0]) "gpt2").2.1
      = some "invalid version" :=
  ⟨((C17_short_stream_rejected llamaLayout.sevenWords [0x74, 0x6a, 0x67] "gpt2").1
      (by decide)).2.2,
    ((C17_short_stream_rejected llamaLayout.sevenWords [0x74, 0x6a, 0x67, 0x67, 1, 0, 0] "gpt2").2.1
      (by decide) (by decide) (Or.inr (Or.inl (by decide)))).2.2⟩

/-- Claim C18. For each of the four magic constants, the `Name` of the container
`DecodeGGML` selects is the four ASCII characters spelled by the bytes of the magic
from the most significant to the least significant; the four names are pairwise
distinct, and containers selected for two magics have the same name only if the
magics are equal. -/
theorem C18_name_spells_magic (m1 m2 : Nat) (c1 c2 : container)
    (h1 : selectContainer m1 = some c1) (h2 : selectContainer m2 = some c2) :
    (c1.Name = magicName m1 ∧ (c1.Name = c2.Name → m1 = m2)) ∧
    (magicName FILE_MAGIC_GGML = "ggml" ∧ magicName FILE_MAGIC_GGMF = "ggmf" ∧
      magicName FILE_MAGIC_GGJT = "ggjt" ∧ magicName FILE_MAGIC_GGLA = "ggla") ∧
    ["ggml", "ggmf", "ggjt", "ggla"].Nodup ∧
    (∀ (L : llamaLayout) (b : List UInt8) (hint : String) (g : GGML) (c : container),
      (DecodeGGML L (NewReader b) hint).1 = some g → g.container = some c →
      c.Name = magicName g.magic) := by
  refine ⟨⟨selectContainer_Name m1 c1 h1, ?_⟩, by decide, by decide, ?_⟩
  · intro hn
    rcases selectContainer_some m1 c1 h1 with ⟨rfl, rfl⟩ | ⟨rfl, rfl⟩ | ⟨rfl, rfl⟩ | ⟨rfl, rfl⟩ <;>
      rcases selectContainer_some m2 c2 h2 with
        ⟨rfl, rfl⟩ | ⟨rfl, rfl⟩ | ⟨rfl, rfl⟩ | ⟨rfl, rfl⟩ <;>
      first
        | rfl
        | exact absurd hn (by decide)
  · intro L b hint g c h hc
    obtain ⟨c0, hsel, -, -, hg⟩ := DecodeGGML_inv L _ hint g h
    subst hg
    simp only [Option.some.injEq] at hc
    subst hc
    rw [container_Decode_Name]
    exact selectContainer_Name _ _ hsel

/-- Witness for claim C18: the magics of `ggjt` and `ggla`. -/
theorem C18_name_spells_magic_witness :
    (container.GGJT 0).Name = magicName 0x67676a74 ∧
    ((container.GGJT 0).Name = (container.LORA 0).Name → (0x67676a74 : Nat) = 0x67676c61) :=
  (C18_name_spells_magic 0x67676a74 0x67676c61 (.GGJT 0) (.LORA 0)
    (by decide) (by decide)).1

/-- Claim C19. `ggmlFileType.String` is injective on recognised codes: two 32-bit
codes with the same label, other than `U`, are equal; the thirteen assigned codes
have thirteen pairwise distinct labels, none of which is `U`. -/
theorem C19_String_injective (a b : Nat) (_ha : a < 2 ^ 32) (_hb : b < 2 ^ 32)
    (h : ggmlFileType.String a = ggmlFileType.String b) (hU : ggmlFileType.String a ≠ "U") :
    a = b ∧
    (([0, 1, 2, 3, 4, 8, 9, 10, 11, 12, 13, 14, 15].map ggmlFileType.String).Nodup ∧
      "U" ∉ [0, 1, 2, 3, 4, 8, 9, 10, 11, 12, 13, 14, 15].map ggmlFileType.String) := by
  refine ⟨?_, by decide, by decide⟩
  have hU2 : ggmlFileType.String b ≠ "U" := by
    rw [← h]
    exact hU
  have ha := mem_of_String_ne a hU
  have hb := mem_of_String_ne b hU2
  rcases ha with rfl | rfl | rfl | rfl | rfl | rfl | rfl | rfl | rfl | rfl | rfl | rfl | rfl <;>
    rcases hb with rfl | rfl | rfl | rfl | rfl | rfl | rfl | rfl | rfl | rfl | rfl | rfl | rfl <;>
    first
      | rfl
      | exact absurd h (by decide)

/-- Witness for claim C19: the code 8 twice. -/
theorem C19_String_injective_witness :
    ggmlFileType.String 8 = "Q8_0" ∧ (8 : Nat) = 8 :=
  ⟨by decide, (C19_String_injective 8 8 (by decide) (by decide) rfl (by decide)).1⟩

/-- Claim C20. `New` calls `DecodeGGML` with the fixed hint `llama`, and every
descriptor returned for that hint has `ModelType` equal to `llama`; so whenever
decoding succeeds `New` returns what the backend constructor returns.  The outcome
of `New` is always one of: the error of `os.Stat`, the error of `os.Open`, the error
of `DecodeGGML`, or the result of the constructor; the `unknown ggml type` branch is
never taken and no nil descriptor is dereferenced. -/
theorem C20_unknown_type_unreachable {M O : Type} (L : llamaLayout)
    (newLlama : String → O → Option M × Option error) (w : World) (model : String) (opts : O) :
    (∀ f g, osStat w model = none → (osOpen w model).1 = some f →
      (DecodeGGML L f.2 "llama").1 = some g →
      g.ModelType = "llama" ∧
      (New L newLlama w model opts).1 =
        .returned (newLlama model opts).1 (newLlama model opts).2) ∧
    (New L newLlama w model opts).1 ≠ .nilDereference ∧
    ((∃ e, osStat w model = some e ∧
        (New L newLlama w model opts).1 = .returned none (some e)) ∨
     (osStat w model = none ∧ (osOpen w model).1 = none ∧
        (New L newLlama w model opts).1 = .returned none (osOpen w model).2.1) ∨
     (∃ f, osStat w model = none ∧ (osOpen w model).1 = some f ∧
        ((∃ e, (DecodeGGML L f.2 "llama").2.1 = some e ∧
            (New L newLlama w model opts).1 = .returned none (some e)) ∨
         ((DecodeGGML L f.2 "llama").2.1 = none ∧
            (New L newLlama w model opts).1 =
              .returned (newLlama model opts).1 (newLlama model opts).2)))) := by
  have hout := New_outcome L newLlama w model opts
  refine ⟨?_, ?_, hout⟩
  · intro f g hs ho hg
    obtain ⟨c, -, -, -, hgeq⟩ := DecodeGGML_inv L f.2 "llama" g hg
    refine ⟨by rw [hgeq], ?_⟩
    rcases hout with ⟨e, he, -⟩ | ⟨-, hn, -⟩ | ⟨f1, -, hf, hd⟩
    · rw [hs] at he
      simp at he
    · rw [ho] at hn
      simp at hn
    · rw [ho] at hf
      simp only [Option.some.injEq] at hf
      subst hf
      rcases hd with ⟨e, he, -⟩ | ⟨-, hr⟩
      · rcases DecodeGGML_exclusive L f.2 "llama" with ⟨h1, -⟩ | ⟨-, h2⟩
        · rw [hg] at h1
          simp at h1
        · rw [h2] at he
          simp at he
      · exact hr
  · rcases hout with ⟨e, -, hr⟩ | ⟨-, -, hr⟩ | ⟨f1, -, -, ⟨e, -, hr⟩ | ⟨-, hr⟩⟩ <;>
      · rw [hr]
        simp

/-- Witness for claim C20: the model file of the sample world is decoded and `New`
returns the model of the sample constructor. -/
theorem C20_unknown_type_unreachable_witness :
    (New llamaLayout.sevenWords sampleNewLlama sampleWorld "m.bin" ()).1
      = .returned (some 7) none :=
  ((C20_unknown_type_unreachable llamaLayout.sevenWords sampleNewLlama sampleWorld "m.bin" ()).1
    (3, NewReader ([0x6c, 0x6d, 0x67, 0x67] ++ List.replicate 28 1))
    { ModelType := "llama", magic := 0x67676d6c, container := some .GGML,
      hyperparameters := some { image := List.replicate 28 1 },
      NumVocab := 0x01010101, FileType := 0x01010101 }
    (by decide) (by decide) (by decide)).2

end llm
